import Mathlib

/-!
# GAFSlotMachine: the slot-machine controller of `Classes/SlotMachine.cpp`

A shallow embedding of the controller class `SlotMachine`: its finite-state
machine (`nextState`, `showPrize`, `start`, `switchType`, `update`,
`onFinishSequence`), the scripted prize cursor (`generatePrize`) and the
reel-result generator (`generateSpinResult`).

Modelling decisions

* The scene objects (`m_arm`, `m_whiteBG`, `m_bars`, ...) belong to the
  animation runtime.  Calls on them do not touch the controller's own fields
  and are left out; what remains of each method is its effect on `m_state`,
  `m_countdown`, `m_rewardType` and `m_prize`, and on the C library's random
  number state.
* `rand()` is a stream of naturals (the C library returns values in
  `0 .. RAND_MAX`) read front to back.
* `float` times are exact rationals.
* The `while` loop of `generateSpinResult` may run forever; it takes a bound
  on the number of iterations and reports `Fault.outOfFuel` if the bound does
  not suffice.
* Dereferencing an iterator that is not inside `m_prizeSequence`, and `%` by
  zero, are reported as `Fault.undefinedBehaviour`.
-/

namespace GAFSlotMachine

/-! ## Data model (`SlotMachine.h`) -/

/-- The enumerators of `enum class EMachineState : uint16_t` that name a state.
The last enumerator, `COUNT`, is the number of states and is kept apart as
`EMachineState.COUNT`. -/
inductive EMachineState where
  | Initial
  | ArmTouched
  | Spin
  | SpinEnd
  | Win
  | End
  deriving DecidableEq, Repr

namespace EMachineState

/-- The underlying value of an enumerator, as the `int` that
`static_cast<uint16_t>(state)` promotes to and `static_cast<int>(state)` gives. -/
def toInt : EMachineState → Int
  | Initial => 0
  | ArmTouched => 1
  | Spin => 2
  | SpinEnd => 3
  | Win => 4
  | End => 5

/-- The enumerator `COUNT`, one past the last state. -/
def COUNT : Int := 6

/-- The enumerator with a given underlying value
(`static_cast<EMachineState>(v)`).  The methods only cast values from `0` up
to `COUNT - 1`; the last branch is never reached by them. -/
def cast (v : Int) : EMachineState :=
  if v = 0 then Initial
  else if v = 1 then ArmTouched
  else if v = 2 then Spin
  else if v = 3 then SpinEnd
  else if v = 4 then Win
  else if v = 5 then End
  else Initial

end EMachineState

/-- The enumerators of `enum class EPrize : uint16_t` that name a prize
(`COUNT`, the number of prizes, is not a prize). -/
inductive EPrize where
  | None
  | C1k
  | C500k
  | C1000k
  deriving DecidableEq, Repr

namespace EPrize

/-- The underlying value of an enumerator (`static_cast<int>(prize)`). -/
def toInt : EPrize → Int
  | None => 0
  | C1k => 1
  | C500k => 2
  | C1000k => 3

end EPrize

/-- A reel: `typedef std::vector<int> PrizeBar_t`. -/
abbrev PrizeBar_t := List Int

/-- The grid: `typedef std::vector<PrizeBar_t> PrizeMatrix_t`. -/
abbrev PrizeMatrix_t := List PrizeBar_t

/-- The constant `const std::string SlotMachine::s_rewardCoins = "coins"`. -/
def s_rewardCoins : String := "coins"

/-- The constant `const std::string SlotMachine::s_rewardChips = "chips"`. -/
def s_rewardChips : String := "chips"

/-- The constant `const int SlotMachine::s_fruitCount = 5`. -/
def s_fruitCount : Int := 5

/-- The constant `const float SlotMachine::s_barTimeout = 0.2f`. -/
def s_barTimeout : ℚ := 2 / 10

/-- What stops a method from returning normally. -/
inductive Fault where
  | outOfFuel
  | undefinedBehaviour
  deriving DecidableEq, Repr

/-! ## The C library's random numbers -/

/-- The state behind `rand()`: the whole stream of draws and how many of them
have been consumed. -/
structure RandState where
  draws : Nat → Nat
  pos : Nat

/-- One call of `rand()`: the next draw, and the state after it. -/
def rand (g : RandState) : Nat × RandState :=
  (g.draws g.pos, { g with pos := g.pos + 1 })

/-- C's `a % b` on `int`: truncated remainder, undefined for `b = 0`. -/
def cRem (a b : Int) : Except Fault Int :=
  if b = 0 then Except.error Fault.undefinedBehaviour else Except.ok (Int.tmod a b)

/-! ## Reel-result generation (`SlotMachine::generateSpinResult`) -/

/-- The read `result[i][j]`. -/
def getEntry (result : PrizeMatrix_t) (i j : Nat) : Int :=
  (result.getD i []).getD j 0

/-- The assignment `result[i][j] = v`. -/
def setEntry (result : PrizeMatrix_t) (i j : Nat) (v : Int) : PrizeMatrix_t :=
  result.set i ((result.getD i []).set j v)

/-- The body of the first `for` loop at index `i`:
`result[i][0] = rand() % s_fruitCount; result[i][2] = rand() % s_fruitCount;`. -/
def fillReel (fruitCount : Int) (i : Nat) (result : PrizeMatrix_t) (g : RandState) :
    Except Fault (PrizeMatrix_t × RandState) :=
  match cRem (rand g).1 fruitCount with
  | Except.error e => Except.error e
  | Except.ok top =>
    match cRem (rand (rand g).2).1 fruitCount with
    | Except.error e => Except.error e
    | Except.ok bottom =>
      Except.ok (setEntry (setEntry result i 0 top) i 2 bottom, (rand (rand g).2).2)

/-- The first `for` loop, over the indices still to do. -/
def fillReels (fruitCount : Int) : List Nat → PrizeMatrix_t → RandState →
    Except Fault (PrizeMatrix_t × RandState)
  | [], result, g => Except.ok (result, g)
  | i :: rest, result, g =>
    match fillReel fruitCount i result g with
    | Except.error e => Except.error e
    | Except.ok (result1, g1) => fillReels fruitCount rest result1 g1

/-- The `switch (prize)` that computes `centralFruit`. -/
def centralFruit (fruitCount : Int) (prize : EPrize) (g : RandState) :
    Except Fault (Int × RandState) :=
  match prize with
  | EPrize.None =>
    match cRem (rand g).1 fruitCount with
    | Except.error e => Except.error e
    | Except.ok v => Except.ok (v, (rand g).2)
  | EPrize.C1k =>
    match cRem (rand g).1 (Int.tdiv fruitCount 2) with
    | Except.error e => Except.error e
    | Except.ok v => Except.ok (v, (rand g).2)
  | EPrize.C500k =>
    match cRem (rand g).1 (Int.tdiv fruitCount 2) with
    | Except.error e => Except.error e
    | Except.ok v => Except.ok (v + Int.tdiv fruitCount 2, (rand g).2)
  | EPrize.C1000k => Except.ok (fruitCount - 1, g)

/-- The loop `while (result[2][1] == result[1][1]) result[2][1] = rand() % s_fruitCount;`
run for at most `fuel` iterations. -/
def redrawLoop (fruitCount : Int) : Nat → PrizeMatrix_t → RandState →
    Except Fault (PrizeMatrix_t × RandState)
  | fuel, result, g =>
    if getEntry result 2 1 = getEntry result 1 1 then
      match fuel with
      | 0 => Except.error Fault.outOfFuel
      | fuel1 + 1 =>
        match cRem (rand g).1 fruitCount with
        | Except.error e => Except.error e
        | Except.ok v => redrawLoop fruitCount fuel1 (setEntry result 2 1 v) (rand g).2
    else Except.ok (result, g)

/-- The second `for` loop: `result[i][1] = centralFruit` for `i = 0, 1, 2`. -/
def setCenters (central : Int) : List Nat → PrizeMatrix_t → PrizeMatrix_t
  | [], result => result
  | i :: rest, result => setCenters central rest (setEntry result i 1 central)

/-- The method `generateSpinResult` with the symbol count as a parameter. -/
def generateSpinResultWith (fruitCount : Int) (fuel : Nat) (prize : EPrize) (g : RandState) :
    Except Fault (PrizeMatrix_t × RandState) :=
  match fillReels fruitCount [0, 1, 2] (List.replicate 3 (List.replicate 3 0)) g with
  | Except.error e => Except.error e
  | Except.ok (result, g1) =>
    match centralFruit fruitCount prize g1 with
    | Except.error e => Except.error e
    | Except.ok (central, g2) =>
      if prize = EPrize.None then
        redrawLoop fruitCount fuel
          (setEntry (setEntry (setEntry result 0 1 central) 1 1 central) 2 1 central) g2
      else
        Except.ok (setCenters central [0, 1, 2] result, g2)

/-- The method `SlotMachine::generateSpinResult(EPrize prize)`. -/
def generateSpinResult (fuel : Nat) (prize : EPrize) (g : RandState) :
    Except Fault (PrizeMatrix_t × RandState) :=
  generateSpinResultWith s_fruitCount fuel prize g

/-! ## The controller (`class SlotMachine`) -/

/-- The sequence that the constructor assigns to `m_prizeSequence`; no method
changes it afterwards. -/
def m_prizeSequence : List EPrize :=
  [EPrize.C1000k, EPrize.None, EPrize.C1000k, EPrize.C1k, EPrize.C1000k, EPrize.C500k]

/-- The fields of `class SlotMachine` that its methods compute with.
`m_prize` is the position of the iterator of that name inside
`m_prizeSequence` (`m_prizeSequence.end()` is the length).  `visited` is a
history variable, not a field of the class: the values `m_state` had at the
`switch` of `nextState`, oldest first. -/
structure SlotMachine where
  m_state : EMachineState
  m_rewardType : String
  m_prize : Nat
  m_countdown : ℚ
  visited : List EMachineState

/-- The dereference `*it` of an iterator at position `i` of `m_prizeSequence`. -/
def deref (i : Nat) : Except Fault EPrize :=
  match m_prizeSequence.get? i with
  | some prize => Except.ok prize
  | none => Except.error Fault.undefinedBehaviour

/-- The method `SlotMachine::getTextByPrize`. -/
def getTextByPrize (prize : EPrize) : String :=
  match prize with
  | EPrize.None => "notwin"
  | EPrize.C1k => "win1k"
  | EPrize.C500k => "win500k"
  | EPrize.C1000k => "win1000k"

namespace SlotMachine

/-- The constructor `SlotMachine::SlotMachine()`. -/
def new : SlotMachine :=
  { m_state := EMachineState.Initial
    m_countdown := -1
    m_rewardType := s_rewardChips
    m_prize := m_prizeSequence.length - 1
    visited := [] }

/-- The method `resetCallbacks`: both delegates are cleared (scene objects),
`m_countdown = -1.0f`. -/
def resetCallbacks (s : SlotMachine) : SlotMachine :=
  { s with m_countdown := -1 }

/-- The method `defaultPlacing`: only scene objects are touched. -/
def defaultPlacing (s : SlotMachine) : SlotMachine := s

/-- The method `generatePrize`: `m_prize++`, back to `begin()` on reaching `end()`. -/
def generatePrize (s : SlotMachine) : SlotMachine :=
  if s.m_prize + 1 = m_prizeSequence.length then { s with m_prize := 0 }
  else { s with m_prize := s.m_prize + 1 }

/-- The value `m_state` gets in the first statement of `nextState`:
`static_cast<uint16_t>(m_state) + 1`, and `0` in place of `COUNT`. -/
def advanced (state : EMachineState) : EMachineState :=
  if state.toInt + 1 = EMachineState.COUNT then EMachineState.cast 0
  else EMachineState.cast (state.toInt + 1)

/-- How many more calls of `nextState` a call of `nextState` can make. -/
def depth (state : EMachineState) : Nat :=
  if state = EMachineState.SpinEnd then 1 else 0

set_option linter.unusedVariables false in
mutual

/-- The method `SlotMachine::nextState`. -/
def nextState (fuel : Nat) (s : SlotMachine) (g : RandState) :
    Except Fault (SlotMachine × RandState) :=
  match h : advanced s.m_state with
  | EMachineState.Initial =>
    Except.ok (defaultPlacing
      { resetCallbacks { s with m_state := EMachineState.Initial } with
        visited := s.visited ++ [EMachineState.Initial] }, g)
  | EMachineState.ArmTouched =>
    Except.ok ({ resetCallbacks { s with m_state := EMachineState.ArmTouched } with
        visited := s.visited ++ [EMachineState.ArmTouched] }, g)
  | EMachineState.Spin =>
    Except.ok ({ resetCallbacks { s with m_state := EMachineState.Spin } with
        visited := s.visited ++ [EMachineState.Spin]
        m_countdown := 3 }, g)
  | EMachineState.SpinEnd =>
    match deref (generatePrize s).m_prize with
    | Except.error e => Except.error e
    | Except.ok prize =>
      match generateSpinResult fuel prize g with
      | Except.error e => Except.error e
      | Except.ok (_, g1) =>
        Except.ok ({ generatePrize (resetCallbacks { s with m_state := EMachineState.SpinEnd }) with
            visited := s.visited ++ [EMachineState.SpinEnd]
            m_countdown := s_barTimeout * 4 }, g1)
  | EMachineState.Win =>
    match deref s.m_prize with
    | Except.error e => Except.error e
    | Except.ok prize =>
      showPrize fuel prize
        { resetCallbacks { s with m_state := EMachineState.Win } with
          visited := s.visited ++ [EMachineState.Win] } g
  | EMachineState.End =>
    Except.ok ({ resetCallbacks { s with m_state := EMachineState.End } with
        visited := s.visited ++ [EMachineState.End] }, g)
termination_by 2 * depth s.m_state + 1
decreasing_by
  simp_wf
  have hs : s.m_state = EMachineState.SpinEnd := by
    revert h
    cases s.m_state <;>
      simp [advanced, EMachineState.toInt, EMachineState.COUNT, EMachineState.cast]
  simp [depth, hs, resetCallbacks]

/-- The method `SlotMachine::showPrize`. -/
def showPrize (fuel : Nat) (prize : EPrize) (s : SlotMachine) (g : RandState) :
    Except Fault (SlotMachine × RandState) :=
  if prize = EPrize.None then nextState fuel s g
  else Except.ok ({ s with m_countdown := 2 }, g)
termination_by 2 * depth s.m_state + 2
decreasing_by
  simp_wf

end

/-- The method `SlotMachine::onFinishSequence`. -/
def onFinishSequence (fuel : Nat) (s : SlotMachine) (g : RandState) :
    Except Fault (SlotMachine × RandState) :=
  nextState fuel s g

/-- The method `SlotMachine::update`. -/
def update (fuel : Nat) (s : SlotMachine) (g : RandState) (dt : ℚ) :
    Except Fault (SlotMachine × RandState) :=
  if s.m_countdown ≥ 0 then
    if s.m_countdown - dt < 0 then
      nextState fuel { s with m_countdown := s.m_countdown - dt } g
    else Except.ok ({ s with m_countdown := s.m_countdown - dt }, g)
  else Except.ok (s, g)

/-- The method `SlotMachine::start`. -/
def start (fuel : Nat) (s : SlotMachine) (g : RandState) :
    Except Fault (SlotMachine × RandState) :=
  if s.m_state = EMachineState.Initial then nextState fuel s g
  else Except.ok (s, g)

/-- The local `idx` of `showPrize`, `static_cast<int>(prize) - 1`: the position
in `m_centralCoins[3]` of the coin element that is shown. -/
def centralCoinIndex (prize : EPrize) : Int :=
  prize.toInt - 1

/-- The first `if` of `switchType`: the reward type is exchanged. -/
def toggled (rewardType : String) : String :=
  if rewardType = s_rewardChips then s_rewardCoins
  else if rewardType = s_rewardCoins then s_rewardChips
  else rewardType

/-- The local `state` of `switchType`: `static_cast<int>(m_state) - 1`, and
`COUNT - 1` when that is negative. -/
def rewound (state : EMachineState) : Int :=
  if state.toInt - 1 < 0 then EMachineState.COUNT - 1 else state.toInt - 1

/-- The method `SlotMachine::switchType`. -/
def switchType (fuel : Nat) (s : SlotMachine) (g : RandState) :
    Except Fault (SlotMachine × RandState) :=
  nextState fuel
    { s with m_rewardType := toggled s.m_rewardType
             m_state := EMachineState.cast (rewound s.m_state) } g

end SlotMachine

/-! ## Notions used to state the properties -/

/-- The `k`-th draw from `g` on, reduced modulo `s_fruitCount`. -/
def fruitAt (g : RandState) (k : Nat) : Int :=
  Int.tmod (g.draws (g.pos + k)) s_fruitCount

/-- The redraw loop of `generateSpinResult(EPrize::None)`, when the method is
entered with random state `g`, meets a draw that ends it: `g`'s seventh draw
is the centre value, and some later draw has another remainder. -/
def RedrawEnds (g : RandState) : Prop :=
  ∃ k, fruitAt g (7 + k) ≠ fruitAt g 6

/-- The stream `0, 1, 2, ...`, not yet read. -/
def countingDraws : RandState :=
  { draws := fun n => n, pos := 0 }

/-- The iterator `m_prize` points at an element of `m_prizeSequence`. -/
def ValidCursor (s : SlotMachine) : Prop :=
  s.m_prize < m_prizeSequence.length

instance instDecidableValidCursor (s : SlotMachine) : Decidable (ValidCursor s) :=
  Nat.decLt _ _

/-- One state advance as the runtime brings it about: while a countdown is
pending, the tick `update(dt)`; otherwise the sequence-finished callback. -/
def advance (fuel : Nat) (dt : ℚ) (s : SlotMachine) (g : RandState) :
    Except Fault (SlotMachine × RandState) :=
  if 0 ≤ s.m_countdown then SlotMachine.update fuel s g dt
  else SlotMachine.onFinishSequence fuel s g

/-- The result of `n` successive advances. -/
def advances (fuel : Nat) (dt : ℚ) : Nat → SlotMachine → RandState →
    Except Fault (SlotMachine × RandState)
  | 0, s, g => Except.ok (s, g)
  | n + 1, s, g =>
    match advance fuel dt s g with
    | Except.error e => Except.error e
    | Except.ok (s1, g1) => advances fuel dt n s1 g1

/-- The call `start()` followed by `n` successive advances. -/
def startThenAdvance (fuel : Nat) (dt : ℚ) (n : Nat) (s : SlotMachine) (g : RandState) :
    Except Fault (SlotMachine × RandState) :=
  match SlotMachine.start fuel s g with
  | Except.error e => Except.error e
  | Except.ok (s1, g1) => advances fuel dt n s1 g1

/-- A call on the controller: the four entry points that the scene and the
animation runtime use, and the private `generatePrize`. -/
inductive Call where
  | start
  | switchType
  | update (dt : ℚ)
  | onFinishSequence
  | generatePrize

/-- The calls of the public interface (`generatePrize` is private and only
`nextState` calls it). -/
def Call.isPublic : Call → Bool
  | Call.generatePrize => false
  | _ => true

/-- The effect of one call. -/
def call (fuel : Nat) (c : Call) (s : SlotMachine) (g : RandState) :
    Except Fault (SlotMachine × RandState) :=
  match c with
  | Call.start => SlotMachine.start fuel s g
  | Call.switchType => SlotMachine.switchType fuel s g
  | Call.update dt => SlotMachine.update fuel s g dt
  | Call.onFinishSequence => SlotMachine.onFinishSequence fuel s g
  | Call.generatePrize => Except.ok (SlotMachine.generatePrize s, g)

/-- The effect of a sequence of calls, first to last. -/
def calls (fuel : Nat) : List Call → SlotMachine → RandState →
    Except Fault (SlotMachine × RandState)
  | [], s, g => Except.ok (s, g)
  | c :: rest, s, g =>
    match call fuel c s g with
    | Except.error e => Except.error e
    | Except.ok (s1, g1) => calls fuel rest s1 g1

/-- The states in whose entry action `nextState` starts a countdown. -/
def Timed (state : EMachineState) : Prop :=
  state = EMachineState.Spin ∨ state = EMachineState.SpinEnd ∨ state = EMachineState.Win

instance instDecidableTimed (state : EMachineState) : Decidable (Timed state) :=
  instDecidableOr

/-- What every call keeps true: the cursor is valid, the countdown is active
exactly in the timed states, the reward type is one of the two constants. -/
def Sound (s : SlotMachine) : Prop :=
  ValidCursor s ∧ (0 ≤ s.m_countdown ↔ Timed s.m_state) ∧
  (s.m_rewardType = s_rewardCoins ∨ s.m_rewardType = s_rewardChips)

/-- What every public call keeps true: a machine in `Win` has its cursor on a
winning tier. -/
def WinHasPrize (s : SlotMachine) : Prop :=
  s.m_state = EMachineState.Win →
    ∃ prize, deref s.m_prize = Except.ok prize ∧ prize ≠ EPrize.None

/-- The stream whose every draw is `n`, not yet read. -/
def constantDraws (n : Nat) : RandState :=
  { draws := fun _ => n, pos := 0 }

/-- The constructed controller after its first spin has stopped on the prize
`C1000k`: resting in `Win`. -/
def winAfterFirstSpin : SlotMachine :=
  { m_state := EMachineState.Win, m_rewardType := s_rewardChips, m_prize := 0,
    m_countdown := 2,
    visited := [EMachineState.ArmTouched, EMachineState.Spin, EMachineState.SpinEnd,
      EMachineState.Win] }

/-- A controller resting in `Initial` with the cursor on the first element, so
that the next prize generated is `None`. -/
def initialAtFirst : SlotMachine :=
  { m_state := EMachineState.Initial, m_rewardType := s_rewardChips, m_prize := 0,
    m_countdown := -1, visited := [] }

/-- A controller resting in `Spin` with its countdown of `3` pending. -/
def spinning : SlotMachine :=
  { m_state := EMachineState.Spin, m_rewardType := s_rewardChips, m_prize := 5,
    m_countdown := 3, visited := [] }

/-- A controller resting in `SpinEnd` with the cursor on the first element. -/
def spinEndAtFirst : SlotMachine :=
  { m_state := EMachineState.SpinEnd, m_rewardType := s_rewardChips, m_prize := 0,
    m_countdown := 1 / 2, visited := [] }

/-- A configuration with state `Win` and the cursor on `None` (index `1`). -/
def winAtNone : SlotMachine :=
  { m_state := EMachineState.Win, m_rewardType := s_rewardChips, m_prize := 1,
    m_countdown := 2, visited := [] }

/-! ## Reel-result generation: closed forms -/

theorem tdiv_fruitCount : Int.tdiv s_fruitCount 2 = 2 := by decide

theorem tmod_cast_bounds (a : Nat) (b : Int) (hb : 0 < b) :
    0 ≤ Int.tmod a b ∧ Int.tmod a b < b := by
  rw [Int.tmod_eq_emod (Int.ofNat_nonneg a) (le_of_lt hb)]
  exact ⟨Int.emod_nonneg _ (ne_of_gt hb), Int.emod_lt_of_pos _ hb⟩

theorem fruitAt_bounds (g : RandState) (k : Nat) :
    0 ≤ fruitAt g k ∧ fruitAt g k < s_fruitCount :=
  tmod_cast_bounds _ _ (by decide)

theorem fillReels_eq (g : RandState) :
    fillReels s_fruitCount [0, 1, 2] (List.replicate 3 (List.replicate 3 0)) g =
      Except.ok ([[fruitAt g 0, 0, fruitAt g 1], [fruitAt g 2, 0, fruitAt g 3],
        [fruitAt g 4, 0, fruitAt g 5]], { g with pos := g.pos + 6 }) := by
  simp [fillReels, fillReel, cRem, rand, setEntry, fruitAt, s_fruitCount, List.replicate]

theorem generateSpinResult_C1k (fuel : Nat) (g : RandState) :
    generateSpinResult fuel EPrize.C1k g =
      Except.ok ([[fruitAt g 0, Int.tmod (g.draws (g.pos + 6)) 2, fruitAt g 1],
        [fruitAt g 2, Int.tmod (g.draws (g.pos + 6)) 2, fruitAt g 3],
        [fruitAt g 4, Int.tmod (g.draws (g.pos + 6)) 2, fruitAt g 5]],
        { g with pos := g.pos + 7 }) := by
  simp only [generateSpinResult, generateSpinResultWith, fillReels_eq]
  simp [centralFruit, tdiv_fruitCount, cRem, rand, setCenters, setEntry]

theorem generateSpinResult_C500k (fuel : Nat) (g : RandState) :
    generateSpinResult fuel EPrize.C500k g =
      Except.ok ([[fruitAt g 0, Int.tmod (g.draws (g.pos + 6)) 2 + 2, fruitAt g 1],
        [fruitAt g 2, Int.tmod (g.draws (g.pos + 6)) 2 + 2, fruitAt g 3],
        [fruitAt g 4, Int.tmod (g.draws (g.pos + 6)) 2 + 2, fruitAt g 5]],
        { g with pos := g.pos + 7 }) := by
  simp only [generateSpinResult, generateSpinResultWith, fillReels_eq]
  simp [centralFruit, tdiv_fruitCount, cRem, rand, setCenters, setEntry]

theorem generateSpinResult_C1000k (fuel : Nat) (g : RandState) :
    generateSpinResult fuel EPrize.C1000k g =
      Except.ok ([[fruitAt g 0, 4, fruitAt g 1], [fruitAt g 2, 4, fruitAt g 3],
        [fruitAt g 4, 4, fruitAt g 5]], { g with pos := g.pos + 6 }) := by
  simp only [generateSpinResult, generateSpinResultWith, fillReels_eq]
  simp [centralFruit, setCenters, setEntry, s_fruitCount]

theorem generateSpinResult_None (fuel : Nat) (g : RandState) :
    generateSpinResult fuel EPrize.None g =
      redrawLoop s_fruitCount fuel
        [[fruitAt g 0, fruitAt g 6, fruitAt g 1], [fruitAt g 2, fruitAt g 6, fruitAt g 3],
          [fruitAt g 4, fruitAt g 6, fruitAt g 5]]
        { g with pos := g.pos + 7 } := by
  simp only [generateSpinResult, generateSpinResultWith, fillReels_eq]
  simp [centralFruit, cRem, rand, setEntry, s_fruitCount, fruitAt]

/-- A winning tier's call returns whatever the bound on the loop: the loop is
not entered. -/
theorem generateSpinResult_win_returns (fuel : Nat) (prize : EPrize) (g : RandState)
    (hwin : prize ≠ EPrize.None) :
    ∃ result g1, generateSpinResult fuel prize g = Except.ok (result, g1) := by
  cases prize with
  | None => exact absurd rfl hwin
  | C1k => exact ⟨_, _, generateSpinResult_C1k fuel g⟩
  | C500k => exact ⟨_, _, generateSpinResult_C500k fuel g⟩
  | C1000k => exact ⟨_, _, generateSpinResult_C1000k fuel g⟩

/-- When the redraw loop returns, it has changed the centre of reel 2 only,
and to a value other than the centre of reel 1. -/
theorem redrawLoop_ok (fruitCount a b c d e f h : Int) :
    ∀ (fuel : Nat) (x : Int) (g : RandState) (result : PrizeMatrix_t) (g1 : RandState),
      redrawLoop fruitCount fuel [[a, c, b], [d, c, e], [f, x, h]] g = Except.ok (result, g1) →
      ∃ y, result = [[a, c, b], [d, c, e], [f, y, h]] ∧ y ≠ c := by
  intro fuel
  induction fuel with
  | zero =>
    intro x g result g1 hrun
    unfold redrawLoop at hrun
    by_cases hx : x = c
    · simp [getEntry, hx] at hrun
    · simp [getEntry, hx] at hrun
      exact ⟨x, hrun.1.symm, hx⟩
  | succ n ih =>
    intro x g result g1 hrun
    unfold redrawLoop at hrun
    by_cases hx : x = c
    · simp only [getEntry, hx] at hrun
      simp only [List.getD_cons_succ, List.getD_cons_zero, if_true] at hrun
      cases hrem : cRem (rand g).1 fruitCount with
      | error e => simp [hrem] at hrun
      | ok v =>
        simp only [hrem, setEntry] at hrun
        exact ih v (rand g).2 result g1 (by simpa using hrun)
    · simp [getEntry, hx] at hrun
      exact ⟨x, hrun.1.symm, hx⟩

/-- The redraw loop entered with all three centres equal to `c` stops at the
first draw whose remainder is not `c`: with `k` draws equal to `c` before it,
any bound above `k` gives the result. -/
theorem redrawLoop_first (a b c d e f h : Int) :
    ∀ (k : Nat) (g : RandState) (fuel : Nat), k + 1 ≤ fuel →
      (∀ j, j < k → fruitAt g j = c) → fruitAt g k ≠ c →
      redrawLoop s_fruitCount fuel [[a, c, b], [d, c, e], [f, c, h]] g =
        Except.ok ([[a, c, b], [d, c, e], [f, fruitAt g k, h]],
          { g with pos := g.pos + (k + 1) }) := by
  intro k
  induction k with
  | zero =>
    intro g fuel hfuel _ hk
    obtain ⟨n, rfl⟩ : ∃ n, fuel = n + 1 := ⟨fuel - 1, by omega⟩
    have h0 : Int.tmod (g.draws g.pos) 5 ≠ c := by simpa [fruitAt, s_fruitCount] using hk
    unfold redrawLoop
    simp only [getEntry, List.getD_cons_succ, List.getD_cons_zero, if_true, cRem, rand,
      s_fruitCount, setEntry]
    unfold redrawLoop
    simp [getEntry, fruitAt, s_fruitCount, h0]
  | succ k ih =>
    intro g fuel hfuel hlt hk
    obtain ⟨n, rfl⟩ : ∃ n, fuel = n + 1 := ⟨fuel - 1, by omega⟩
    have h0 : Int.tmod (g.draws g.pos) 5 = c := by
      simpa [fruitAt, s_fruitCount] using hlt 0 (Nat.succ_pos k)
    have hshift : ∀ j, fruitAt { g with pos := g.pos + 1 } j = fruitAt g (j + 1) := by
      intro j
      simp [fruitAt, Nat.add_assoc, Nat.add_comm 1 j]
    have hrec := ih { g with pos := g.pos + 1 } n (by omega)
      (fun j hj => by rw [hshift]; exact hlt (j + 1) (by omega))
      (by rw [hshift]; exact hk)
    unfold redrawLoop
    simp only [getEntry, List.getD_cons_succ, List.getD_cons_zero, if_true, cRem, rand,
      s_fruitCount, setEntry]
    simp only [s_fruitCount] at hrec
    simp [h0, hrec, hshift, Nat.add_assoc]
    omega

/-- On a stream that ends the redraw loop, `generateSpinResult(None)` returns
one and the same result for every large enough bound. -/
theorem generateSpinResult_None_returns (g : RandState) (hends : RedrawEnds g) :
    ∃ fuel0 result g1, ∀ fuel, fuel0 ≤ fuel →
      generateSpinResult fuel EPrize.None g = Except.ok (result, g1) := by
  classical
  have hex : ∃ k, fruitAt { g with pos := g.pos + 7 } k ≠ fruitAt g 6 := by
    obtain ⟨k, hk⟩ := hends
    exact ⟨k, by simpa [fruitAt, Nat.add_assoc] using hk⟩
  refine ⟨Nat.find hex + 1,
    [[fruitAt g 0, fruitAt g 6, fruitAt g 1], [fruitAt g 2, fruitAt g 6, fruitAt g 3],
      [fruitAt g 4, fruitAt { g with pos := g.pos + 7 } (Nat.find hex), fruitAt g 5]],
    { g with pos := g.pos + 7 + (Nat.find hex + 1) }, fun fuel hfuel => ?_⟩
  rw [generateSpinResult_None]
  exact redrawLoop_first _ _ _ _ _ _ _ (Nat.find hex) _ fuel hfuel
    (fun j hj => not_not.mp (Nat.find_min hex hj)) (Nat.find_spec hex)

/-- Every prize's `generateSpinResult` returns for every large enough bound,
on a stream that ends the redraw loop. -/
theorem generateSpinResult_returns (prize : EPrize) (g : RandState)
    (hends : prize = EPrize.None → RedrawEnds g) :
    ∃ fuel0 result g1, ∀ fuel, fuel0 ≤ fuel →
      generateSpinResult fuel prize g = Except.ok (result, g1) := by
  by_cases hp : prize = EPrize.None
  · subst hp
    exact generateSpinResult_None_returns g (hends rfl)
  · cases prize with
    | None => exact absurd rfl hp
    | C1k => exact ⟨0, _, _, fun fuel _ => generateSpinResult_C1k fuel g⟩
    | C500k => exact ⟨0, _, _, fun fuel _ => generateSpinResult_C500k fuel g⟩
    | C1000k => exact ⟨0, _, _, fun fuel _ => generateSpinResult_C1000k fuel g⟩

/-- The redraw loop entered with all three centres equal to `c`, on draws that
all have the remainder `c`, exhausts every bound. -/
theorem redrawLoop_never (a b c d e f h : Int) :
    ∀ (fuel : Nat) (g : RandState), (∀ j, fruitAt g j = c) →
      redrawLoop s_fruitCount fuel [[a, c, b], [d, c, e], [f, c, h]] g =
        Except.error Fault.outOfFuel := by
  intro fuel
  induction fuel with
  | zero =>
    intro g _
    unfold redrawLoop
    simp [getEntry]
  | succ n ih =>
    intro g hall
    have h0 : Int.tmod (g.draws g.pos) 5 = c := by
      simpa [fruitAt, s_fruitCount] using hall 0
    have hrec := ih { g with pos := g.pos + 1 } (fun j => by
      have := hall (j + 1)
      simpa [fruitAt, Nat.add_assoc, Nat.add_comm 1 j] using this)
    unfold redrawLoop
    simp only [getEntry, List.getD_cons_succ, List.getD_cons_zero, if_true, cRem, rand,
      s_fruitCount, setEntry]
    simp only [s_fruitCount] at hrec
    simp [h0, hrec]

/-- On a stream that does not end the redraw loop, `generateSpinResult(None)`
returns for no bound. -/
theorem generateSpinResult_None_never (g : RandState) (hnever : ¬ RedrawEnds g) (fuel : Nat) :
    generateSpinResult fuel EPrize.None g = Except.error Fault.outOfFuel := by
  rw [generateSpinResult_None]
  refine redrawLoop_never _ _ _ _ _ _ _ fuel _ (fun j => ?_)
  by_contra hne
  exact hnever ⟨j, by simpa [fruitAt, Nat.add_assoc] using hne⟩

/-! ## C1, C2: the centres of the generated grid -/

/-- C1: for every winning prize tier, every bound on the loop and every stream
of draws, `generateSpinResult` returns a grid of three reels with one and the
same centre value `c`; `c` lies in `[0, s_fruitCount / 2)` for `C1k`, in
`[s_fruitCount / 2, s_fruitCount)` for `C500k`, and is `s_fruitCount - 1 = 4`
for `C1000k`. -/
theorem C1_winning_centers_equal_in_range (prize : EPrize) (fuel : Nat) (g : RandState)
    (hwin : prize ≠ EPrize.None) :
    ∃ t0 b0 t1 b1 t2 b2 c g1,
      generateSpinResult fuel prize g =
        Except.ok ([[t0, c, b0], [t1, c, b1], [t2, c, b2]], g1) ∧
      getEntry [[t0, c, b0], [t1, c, b1], [t2, c, b2]] 0 1 = c ∧
      getEntry [[t0, c, b0], [t1, c, b1], [t2, c, b2]] 1 1 = c ∧
      getEntry [[t0, c, b0], [t1, c, b1], [t2, c, b2]] 2 1 = c ∧
      0 ≤ c ∧ c < s_fruitCount ∧
      (prize = EPrize.C1k → c < Int.tdiv s_fruitCount 2) ∧
      (prize = EPrize.C500k → Int.tdiv s_fruitCount 2 ≤ c) ∧
      (prize = EPrize.C1000k → c = s_fruitCount - 1 ∧ c = 4) := by
  cases prize with
  | None => exact absurd rfl hwin
  | C1k =>
    have hb := tmod_cast_bounds (g.draws (g.pos + 6)) 2 (by decide)
    refine ⟨_, _, _, _, _, _, _, _, generateSpinResult_C1k fuel g, rfl, rfl, rfl, hb.1, ?_, ?_, ?_, ?_⟩
    · have := hb.2
      simp only [s_fruitCount]
      omega
    · intro _
      rw [tdiv_fruitCount]
      exact hb.2
    · intro hc
      cases hc
    · intro hc
      cases hc
  | C500k =>
    have hb := tmod_cast_bounds (g.draws (g.pos + 6)) 2 (by decide)
    refine ⟨_, _, _, _, _, _, _, _, generateSpinResult_C500k fuel g, rfl, rfl, rfl, ?_, ?_, ?_, ?_, ?_⟩
    · have := hb.1
      omega
    · have := hb.2
      simp only [s_fruitCount]
      omega
    · intro hc
      cases hc
    · intro _
      rw [tdiv_fruitCount]
      have := hb.1
      omega
    · intro hc
      cases hc
  | C1000k =>
    refine ⟨_, _, _, _, _, _, _, _, generateSpinResult_C1000k fuel g, rfl, rfl, rfl, ?_, ?_, ?_, ?_, ?_⟩
    · decide
    · decide
    · intro hc
      cases hc
    · intro hc
      cases hc
    · intro _
      exact ⟨by decide, rfl⟩

/-- C1 at the tier `C1000k`, no loop iterations allowed, on the stream `0, 1, 2, ...`. -/
theorem C1_winning_centers_equal_in_range_witness :
    EPrize.C1000k ≠ EPrize.None ∧
    ∃ t0 b0 t1 b1 t2 b2 c g1,
      generateSpinResult 0 EPrize.C1000k countingDraws =
        Except.ok ([[t0, c, b0], [t1, c, b1], [t2, c, b2]], g1) ∧
      getEntry [[t0, c, b0], [t1, c, b1], [t2, c, b2]] 0 1 = c ∧
      getEntry [[t0, c, b0], [t1, c, b1], [t2, c, b2]] 1 1 = c ∧
      getEntry [[t0, c, b0], [t1, c, b1], [t2, c, b2]] 2 1 = c ∧
      0 ≤ c ∧ c < s_fruitCount ∧
      (EPrize.C1000k = EPrize.C1k → c < Int.tdiv s_fruitCount 2) ∧
      (EPrize.C1000k = EPrize.C500k → Int.tdiv s_fruitCount 2 ≤ c) ∧
      (EPrize.C1000k = EPrize.C1000k → c = s_fruitCount - 1 ∧ c = 4) :=
  ⟨by decide, C1_winning_centers_equal_in_range EPrize.C1000k 0 countingDraws (by decide)⟩

/-- C2: whenever `generateSpinResult(None)` returns, the centres of reel 0 and
reel 1 are equal and the centre of reel 2 differs from that of reel 1, so the
three centres are not all equal. -/
theorem C2_none_centers_not_all_equal (fuel : Nat) (g : RandState) (result : PrizeMatrix_t)
    (g1 : RandState)
    (hret : generateSpinResult fuel EPrize.None g = Except.ok (result, g1)) :
    getEntry result 0 1 = getEntry result 1 1 ∧
    getEntry result 2 1 ≠ getEntry result 1 1 ∧
    ¬ (getEntry result 0 1 = getEntry result 1 1 ∧ getEntry result 1 1 = getEntry result 2 1) ∧
    ∃ t0 b0 t1 b1 t2 b2 c c2,
      result = [[t0, c, b0], [t1, c, b1], [t2, c2, b2]] ∧ c2 ≠ c := by
  rw [generateSpinResult_None] at hret
  obtain ⟨y, hres, hy⟩ := redrawLoop_ok _ _ _ _ _ _ _ _ fuel _ _ result g1 hret
  subst hres
  refine ⟨rfl, ?_, ?_, ⟨_, _, _, _, _, _, _, _, rfl, hy⟩⟩
  · simpa [getEntry] using hy
  · intro hall
    exact hy (by simpa [getEntry] using hall.2.symm)

/-- C2 on the stream `0, 1, 2, ...` with one loop iteration allowed: the call
returns the grid with centres `1, 1, 2`. -/
theorem C2_none_centers_not_all_equal_witness :
    generateSpinResult 1 EPrize.None countingDraws =
      Except.ok ([[0, 1, 1], [2, 1, 3], [4, 2, 0]], { countingDraws with pos := 8 }) ∧
    getEntry [[0, 1, 1], [2, 1, 3], [4, 2, 0]] 0 1 = getEntry [[0, 1, 1], [2, 1, 3], [4, 2, 0]] 1 1 ∧
    getEntry [[0, 1, 1], [2, 1, 3], [4, 2, 0]] 2 1 ≠ getEntry [[0, 1, 1], [2, 1, 3], [4, 2, 0]] 1 1 :=
  ⟨rfl, (C2_none_centers_not_all_equal 1 countingDraws _ _ rfl).1,
    (C2_none_centers_not_all_equal 1 countingDraws _ _ rfl).2.1⟩

/-! ## C4, C5: the prize cursor -/

theorem length_prizeSequence : m_prizeSequence.length = 6 := rfl

theorem generatePrize_m_prize (s : SlotMachine) :
    (SlotMachine.generatePrize s).m_prize = if s.m_prize + 1 = 6 then 0 else s.m_prize + 1 := by
  unfold SlotMachine.generatePrize
  rw [length_prizeSequence]
  split <;> rfl

theorem generatePrize_iterate_new (n : Nat) :
    (Nat.iterate SlotMachine.generatePrize (n + 1) SlotMachine.new).m_prize = n % 6 := by
  induction n with
  | zero => rfl
  | succ k ih =>
    rw [Function.iterate_succ_apply', generatePrize_m_prize, ih]
    split <;> omega

/-- C4: on a freshly constructed controller the `n`-th call of `generatePrize`
(`n ≥ 1`) leaves the cursor at index `(n - 1) mod 6`, which holds an element
of the sequence, and that element is what the returned iterator designates;
the first five calls designate `C1000k, None, C1000k, C1k, C1000k`. -/
theorem C4_generatePrize_nth_call (n : Nat) (hn : 1 ≤ n) :
    (Nat.iterate SlotMachine.generatePrize n SlotMachine.new).m_prize = (n - 1) % 6 ∧
    (∃ prize, m_prizeSequence.get? ((n - 1) % 6) = some prize ∧
      deref (Nat.iterate SlotMachine.generatePrize n SlotMachine.new).m_prize =
        Except.ok prize) ∧
    List.map (fun k => deref (Nat.iterate SlotMachine.generatePrize k SlotMachine.new).m_prize)
        [1, 2, 3, 4, 5] =
      [Except.ok EPrize.C1000k, Except.ok EPrize.None, Except.ok EPrize.C1000k,
        Except.ok EPrize.C1k, Except.ok EPrize.C1000k] := by
  obtain ⟨k, rfl⟩ : ∃ k, n = k + 1 := ⟨n - 1, by omega⟩
  have hcur := generatePrize_iterate_new k
  have hlt : k % 6 < 6 := Nat.mod_lt _ (by decide)
  refine ⟨by simpa using hcur, ?_, rfl⟩
  rw [hcur]
  simp only [Nat.add_sub_cancel]
  generalize k % 6 = i at hlt
  interval_cases i <;> exact ⟨_, rfl, rfl⟩

/-- C4 at the tenth call: the cursor is at index `3`, which holds `C1k`. -/
theorem C4_generatePrize_nth_call_witness :
    1 ≤ 10 ∧
    (Nat.iterate SlotMachine.generatePrize 10 SlotMachine.new).m_prize = (10 - 1) % 6 ∧
    m_prizeSequence.get? ((10 - 1) % 6) = some EPrize.C1k :=
  ⟨by decide, (C4_generatePrize_nth_call 10 (by decide)).1, rfl⟩

/-- C5: from every valid cursor position, as many calls of `generatePrize` as
the sequence has elements (six) bring the controller back to where it was, so
the cursor designates the prize it designated before. -/
theorem C5_generatePrize_cycle (s : SlotMachine) (hvalid : ValidCursor s) :
    m_prizeSequence.length = 6 ∧
    Nat.iterate SlotMachine.generatePrize m_prizeSequence.length s = s ∧
    (Nat.iterate SlotMachine.generatePrize m_prizeSequence.length s).m_prize = s.m_prize ∧
    deref (Nat.iterate SlotMachine.generatePrize m_prizeSequence.length s).m_prize =
      deref s.m_prize := by
  have hiter : Nat.iterate SlotMachine.generatePrize m_prizeSequence.length s = s := by
    obtain ⟨st, rt, i, cd, vis⟩ := s
    simp only [ValidCursor, length_prizeSequence] at hvalid ⊢
    interval_cases i <;>
      simp [Function.iterate_succ, SlotMachine.generatePrize, length_prizeSequence]
  exact ⟨rfl, hiter, by rw [hiter], by rw [hiter]⟩

/-- C5 from the cursor position `3` (the prize `C1k`). -/
theorem C5_generatePrize_cycle_witness :
    ValidCursor { SlotMachine.new with m_prize := 3 } ∧
    (Nat.iterate SlotMachine.generatePrize m_prizeSequence.length
      { SlotMachine.new with m_prize := 3 }).m_prize = 3 :=
  ⟨by decide, (C5_generatePrize_cycle { SlotMachine.new with m_prize := 3 } (by decide)).2.2.1⟩

/-! ## The state machine: one advance, state by state -/

theorem advanced_eq (state : EMachineState) :
    SlotMachine.advanced state =
      match state with
      | EMachineState.Initial => EMachineState.ArmTouched
      | EMachineState.ArmTouched => EMachineState.Spin
      | EMachineState.Spin => EMachineState.SpinEnd
      | EMachineState.SpinEnd => EMachineState.Win
      | EMachineState.Win => EMachineState.End
      | EMachineState.End => EMachineState.Initial := by
  cases state <;>
    simp [SlotMachine.advanced, EMachineState.toInt, EMachineState.COUNT, EMachineState.cast]

theorem generatePrize_eq (s : SlotMachine) :
    SlotMachine.generatePrize s =
      { m_state := s.m_state, m_rewardType := s.m_rewardType,
        m_prize := if s.m_prize + 1 = 6 then 0 else s.m_prize + 1,
        m_countdown := s.m_countdown, visited := s.visited } := by
  unfold SlotMachine.generatePrize
  rw [length_prizeSequence]
  split <;> rfl

theorem nextState_Initial (fuel : Nat) (s : SlotMachine) (g : RandState)
    (hs : s.m_state = EMachineState.Initial) :
    SlotMachine.nextState fuel s g =
      Except.ok ({ m_state := EMachineState.ArmTouched, m_rewardType := s.m_rewardType,
                   m_prize := s.m_prize, m_countdown := -1,
                   visited := s.visited ++ [EMachineState.ArmTouched] }, g) := by
  have ha := advanced_eq s.m_state
  rw [hs] at ha
  simp only at ha
  rw [SlotMachine.nextState]
  split <;> simp_all [SlotMachine.resetCallbacks, SlotMachine.defaultPlacing]

theorem nextState_ArmTouched (fuel : Nat) (s : SlotMachine) (g : RandState)
    (hs : s.m_state = EMachineState.ArmTouched) :
    SlotMachine.nextState fuel s g =
      Except.ok ({ m_state := EMachineState.Spin, m_rewardType := s.m_rewardType,
                   m_prize := s.m_prize, m_countdown := 3,
                   visited := s.visited ++ [EMachineState.Spin] }, g) := by
  have ha := advanced_eq s.m_state
  rw [hs] at ha
  simp only at ha
  rw [SlotMachine.nextState]
  split <;> simp_all [SlotMachine.resetCallbacks, SlotMachine.defaultPlacing]

theorem nextState_Spin (fuel : Nat) (s : SlotMachine) (g : RandState)
    (hs : s.m_state = EMachineState.Spin) :
    SlotMachine.nextState fuel s g =
      match deref (SlotMachine.generatePrize s).m_prize with
      | Except.error e => Except.error e
      | Except.ok prize =>
        match generateSpinResult fuel prize g with
        | Except.error e => Except.error e
        | Except.ok (_, g1) =>
          Except.ok ({ m_state := EMachineState.SpinEnd, m_rewardType := s.m_rewardType,
                       m_prize := (SlotMachine.generatePrize s).m_prize,
                       m_countdown := s_barTimeout * 4,
                       visited := s.visited ++ [EMachineState.SpinEnd] }, g1) := by
  have ha := advanced_eq s.m_state
  rw [hs] at ha
  simp only at ha
  rw [SlotMachine.nextState]
  split <;> simp_all [SlotMachine.resetCallbacks, SlotMachine.defaultPlacing]
  all_goals simp only [generatePrize_eq]

theorem nextState_Win (fuel : Nat) (s : SlotMachine) (g : RandState)
    (hs : s.m_state = EMachineState.Win) :
    SlotMachine.nextState fuel s g =
      Except.ok ({ m_state := EMachineState.End, m_rewardType := s.m_rewardType,
                   m_prize := s.m_prize, m_countdown := -1,
                   visited := s.visited ++ [EMachineState.End] }, g) := by
  have ha := advanced_eq s.m_state
  rw [hs] at ha
  simp only at ha
  rw [SlotMachine.nextState]
  split <;> simp_all [SlotMachine.resetCallbacks, SlotMachine.defaultPlacing]

theorem nextState_End (fuel : Nat) (s : SlotMachine) (g : RandState)
    (hs : s.m_state = EMachineState.End) :
    SlotMachine.nextState fuel s g =
      Except.ok ({ m_state := EMachineState.Initial, m_rewardType := s.m_rewardType,
                   m_prize := s.m_prize, m_countdown := -1,
                   visited := s.visited ++ [EMachineState.Initial] }, g) := by
  have ha := advanced_eq s.m_state
  rw [hs] at ha
  simp only at ha
  rw [SlotMachine.nextState]
  split <;> simp_all [SlotMachine.resetCallbacks, SlotMachine.defaultPlacing]

theorem nextState_SpinEnd (fuel : Nat) (s : SlotMachine) (g : RandState)
    (hs : s.m_state = EMachineState.SpinEnd) :
    SlotMachine.nextState fuel s g =
      match deref s.m_prize with
      | Except.error e => Except.error e
      | Except.ok prize =>
        if prize = EPrize.None then
          Except.ok ({ m_state := EMachineState.End, m_rewardType := s.m_rewardType,
                       m_prize := s.m_prize, m_countdown := -1,
                       visited := s.visited ++ [EMachineState.Win, EMachineState.End] }, g)
        else
          Except.ok ({ m_state := EMachineState.Win, m_rewardType := s.m_rewardType,
                       m_prize := s.m_prize, m_countdown := 2,
                       visited := s.visited ++ [EMachineState.Win] }, g) := by
  have ha := advanced_eq s.m_state
  rw [hs] at ha
  simp only at ha
  rw [SlotMachine.nextState]
  split <;> simp_all [SlotMachine.resetCallbacks, SlotMachine.defaultPlacing]
  cases hd : deref s.m_prize with
  | error e => simp
  | ok prize =>
    simp only
    rw [SlotMachine.showPrize]
    by_cases hp : prize = EPrize.None
    · simp only [hp, if_true]
      rw [nextState_Win _ _ _ rfl]
      simp
    · simp [hp]

/-- `nextState` does not read the countdown it finds. -/
theorem nextState_countdown (fuel : Nat) (s : SlotMachine) (g : RandState) (c : ℚ) :
    SlotMachine.nextState fuel { s with m_countdown := c } g = SlotMachine.nextState fuel s g := by
  obtain ⟨st, rt, i, cd, vis⟩ := s
  cases st
  · rw [nextState_Initial _ _ _ rfl, nextState_Initial _ _ _ rfl]
  · rw [nextState_ArmTouched _ _ _ rfl, nextState_ArmTouched _ _ _ rfl]
  · rw [nextState_Spin _ _ _ rfl, nextState_Spin _ _ _ rfl]
    simp only [generatePrize_eq]
  · rw [nextState_SpinEnd _ _ _ rfl, nextState_SpinEnd _ _ _ rfl]
  · rw [nextState_Win _ _ _ rfl, nextState_Win _ _ _ rfl]
  · rw [nextState_End _ _ _ rfl, nextState_End _ _ _ rfl]

theorem deref_valid (i : Nat) (hi : i < m_prizeSequence.length) :
    ∃ prize, deref i = Except.ok prize := by
  rw [length_prizeSequence] at hi
  interval_cases i <;> exact ⟨_, rfl⟩

theorem validCursor_generatePrize (s : SlotMachine) (hvalid : ValidCursor s) :
    (SlotMachine.generatePrize s).m_prize < m_prizeSequence.length := by
  rw [generatePrize_m_prize, length_prizeSequence]
  simp only [ValidCursor, length_prizeSequence] at hvalid
  split <;> omega

/-- The advance from `Spin` into `SpinEnd` returns for every large enough
bound, on a stream that ends the redraw loop. -/
theorem nextState_Spin_returns (s : SlotMachine) (g : RandState)
    (hs : s.m_state = EMachineState.Spin) (hvalid : ValidCursor s)
    (hends : deref (SlotMachine.generatePrize s).m_prize = Except.ok EPrize.None → RedrawEnds g) :
    ∃ fuel0 g1, ∀ fuel, fuel0 ≤ fuel →
      SlotMachine.nextState fuel s g =
        Except.ok ({ m_state := EMachineState.SpinEnd, m_rewardType := s.m_rewardType,
                     m_prize := (SlotMachine.generatePrize s).m_prize,
                     m_countdown := s_barTimeout * 4,
                     visited := s.visited ++ [EMachineState.SpinEnd] }, g1) := by
  obtain ⟨prize, hprize⟩ := deref_valid _ (validCursor_generatePrize s hvalid)
  obtain ⟨fuel0, result, g1, hgen⟩ :=
    generateSpinResult_returns prize g (fun hp => hends (by rw [hprize, hp]))
  refine ⟨fuel0, g1, fun fuel hfuel => ?_⟩
  rw [nextState_Spin fuel s g hs, hprize]
  simp only [hgen fuel hfuel]

/-- The advance from `Spin` into `SpinEnd` with the prize `None` returns for
no bound, on a stream that does not end the redraw loop. -/
theorem nextState_Spin_never (fuel : Nat) (s : SlotMachine) (g : RandState)
    (hs : s.m_state = EMachineState.Spin)
    (hnone : deref (SlotMachine.generatePrize s).m_prize = Except.ok EPrize.None)
    (hnever : ¬ RedrawEnds g) :
    SlotMachine.nextState fuel s g = Except.error Fault.outOfFuel := by
  rw [nextState_Spin fuel s g hs, hnone]
  simp only [generateSpinResult_None_never g hnever fuel]

theorem cast_rewound (state : EMachineState) :
    EMachineState.cast (SlotMachine.rewound state) =
      match state with
      | EMachineState.Initial => EMachineState.End
      | EMachineState.ArmTouched => EMachineState.Initial
      | EMachineState.Spin => EMachineState.ArmTouched
      | EMachineState.SpinEnd => EMachineState.Spin
      | EMachineState.Win => EMachineState.SpinEnd
      | EMachineState.End => EMachineState.Win := by
  cases state <;>
    simp [SlotMachine.rewound, EMachineState.toInt, EMachineState.COUNT, EMachineState.cast]

theorem switchType_eq (fuel : Nat) (s : SlotMachine) (g : RandState) :
    SlotMachine.switchType fuel s g =
      SlotMachine.nextState fuel
        { m_state := EMachineState.cast (SlotMachine.rewound s.m_state),
          m_rewardType := SlotMachine.toggled s.m_rewardType,
          m_prize := s.m_prize, m_countdown := s.m_countdown, visited := s.visited } g := rfl

/-- The call `switchType()` returns for every large enough bound: for a valid
cursor, on a stream that ends the redraw loop. -/
theorem switchType_returns (s : SlotMachine) (g : RandState) (hvalid : ValidCursor s)
    (hends : RedrawEnds g) :
    ∃ fuel0 s1 g1, ∀ fuel, fuel0 ≤ fuel →
      SlotMachine.switchType fuel s g = Except.ok (s1, g1) := by
  obtain ⟨st, rt, i, cd, vis⟩ := s
  cases st
  · exact ⟨0, _, _, fun fuel _ => by
      rw [switchType_eq, cast_rewound, nextState_End _ _ _ rfl]⟩
  · exact ⟨0, _, _, fun fuel _ => by
      rw [switchType_eq, cast_rewound, nextState_Initial _ _ _ rfl]⟩
  · exact ⟨0, _, _, fun fuel _ => by
      rw [switchType_eq, cast_rewound, nextState_ArmTouched _ _ _ rfl]⟩
  · obtain ⟨fuel0, g1, hret⟩ := nextState_Spin_returns
      { m_state := EMachineState.Spin, m_rewardType := SlotMachine.toggled rt,
        m_prize := i, m_countdown := cd, visited := vis } g rfl hvalid (fun _ => hends)
    exact ⟨fuel0, _, g1, fun fuel hfuel => by
      rw [switchType_eq, cast_rewound]
      exact hret fuel hfuel⟩
  · obtain ⟨prize, hprize⟩ := deref_valid i hvalid
    by_cases hp : prize = EPrize.None
    · exact ⟨0, _, _, fun fuel _ => by
        rw [switchType_eq, cast_rewound, nextState_SpinEnd _ _ _ rfl]
        simp only [hprize, hp, if_true]
        rfl⟩
    · exact ⟨0, _, _, fun fuel _ => by
        rw [switchType_eq, cast_rewound, nextState_SpinEnd _ _ _ rfl]
        simp only [hprize, hp, if_false]
        rfl⟩
  · exact ⟨0, _, _, fun fuel _ => by
      rw [switchType_eq, cast_rewound, nextState_Win _ _ _ rfl]⟩

/-- Whenever `switchType()` returns, and unless it was called in `Win` with
the cursor on `None`, the state is the one before the call, entered anew. -/
theorem switchType_state (fuel : Nat) (s : SlotMachine) (g : RandState) (s1 : SlotMachine)
    (g1 : RandState)
    (hnot : ¬ (s.m_state = EMachineState.Win ∧ deref s.m_prize = Except.ok EPrize.None))
    (hrun : SlotMachine.switchType fuel s g = Except.ok (s1, g1)) :
    s1.m_state = s.m_state ∧ s1.visited = s.visited ++ [s.m_state] := by
  rw [switchType_eq, cast_rewound] at hrun
  obtain ⟨st, rt, i, cd, vis⟩ := s
  cases st
  · rw [nextState_End _ _ _ rfl] at hrun
    cases hrun
    exact ⟨rfl, rfl⟩
  · rw [nextState_Initial _ _ _ rfl] at hrun
    cases hrun
    exact ⟨rfl, rfl⟩
  · rw [nextState_ArmTouched _ _ _ rfl] at hrun
    cases hrun
    exact ⟨rfl, rfl⟩
  · rw [nextState_Spin _ _ _ rfl] at hrun
    cases hd : deref (SlotMachine.generatePrize
        { m_state := EMachineState.Spin, m_rewardType := SlotMachine.toggled rt,
          m_prize := i, m_countdown := cd, visited := vis }).m_prize with
    | error e => simp [hd] at hrun
    | ok prize =>
      cases hg : generateSpinResult fuel prize g with
      | error e => simp [hd, hg] at hrun
      | ok r =>
        simp only [hd, hg] at hrun
        cases hrun
        exact ⟨rfl, rfl⟩
  · rw [nextState_SpinEnd _ _ _ rfl] at hrun
    cases hd : deref i with
    | error e => simp [hd] at hrun
    | ok prize =>
      simp only [hd] at hrun
      by_cases hp : prize = EPrize.None
      · exact absurd ⟨rfl, by rw [← hp]; exact hd⟩ hnot
      · simp only [hp, if_false] at hrun
        cases hrun
        exact ⟨rfl, rfl⟩
  · rw [nextState_Win _ _ _ rfl] at hrun
    cases hrun
    exact ⟨rfl, rfl⟩

/-! ## C3: one cycle of the state machine -/

/-- An advance with the countdown, if any, below the tick is one call of `nextState`. -/
theorem advance_eq_nextState (fuel : Nat) (dt : ℚ) (s : SlotMachine) (g : RandState)
    (hdt : s.m_countdown < dt) :
    advance fuel dt s g = SlotMachine.nextState fuel s g := by
  unfold advance
  by_cases hact : 0 ≤ s.m_countdown
  · rw [if_pos hact]
    unfold SlotMachine.update
    rw [if_pos hact, if_pos (sub_neg.mpr hdt)]
    exact nextState_countdown fuel s g _
  · rw [if_neg hact]
    rfl

theorem advances_succ (fuel : Nat) (dt : ℚ) (n : Nat) (s s1 : SlotMachine) (g g1 : RandState)
    (hstep : advance fuel dt s g = Except.ok (s1, g1)) :
    advances fuel dt (n + 1) s g = advances fuel dt n s1 g1 := by
  simp only [advances, hstep]

/-- The stream `0, 1, 2, ...` ends the redraw loop at its first redraw. -/
theorem redrawEnds_countingDraws : RedrawEnds countingDraws := ⟨0, by decide⟩

/-- C3: from `Initial`, with a valid cursor, `start()` followed by successive
advances (ticks `update(dt)` that let the pending countdown expire, callbacks
`onFinishSequence` otherwise) returns, for every large enough bound on the
redraw loop, to `Initial`, and the states entered on the way are exactly
`ArmTouched, Spin, SpinEnd, Win, End, Initial` in this order.  It takes five
advances after `start()`, and four when the prize generated is `None`: `Win`
is then entered and left within one advance.  When the prize generated is
`None` the stream of draws has to end the redraw loop. -/
theorem C3_cycle_visits_each_state_once (s : SlotMachine) (g : RandState) (dt : ℚ)
    (hs : s.m_state = EMachineState.Initial) (hvalid : ValidCursor s) (hdt : 3 < dt)
    (hends : deref (SlotMachine.generatePrize s).m_prize = Except.ok EPrize.None → RedrawEnds g) :
    ∃ fuel0 n s1 g1,
      (∀ fuel, fuel0 ≤ fuel → startThenAdvance fuel dt n s g = Except.ok (s1, g1)) ∧
      s1.m_state = EMachineState.Initial ∧
      s1.visited = s.visited ++ [EMachineState.ArmTouched, EMachineState.Spin,
        EMachineState.SpinEnd, EMachineState.Win, EMachineState.End, EMachineState.Initial] ∧
      (deref (SlotMachine.generatePrize s).m_prize = Except.ok EPrize.None → n = 4) ∧
      (deref (SlotMachine.generatePrize s).m_prize ≠ Except.ok EPrize.None → n = 5) := by
  obtain ⟨prize, hprize⟩ := deref_valid _ (validCursor_generatePrize s hvalid)
  have hnext : (SlotMachine.generatePrize
      { m_state := EMachineState.Spin, m_rewardType := s.m_rewardType, m_prize := s.m_prize,
        m_countdown := 3,
        visited := s.visited ++ [EMachineState.ArmTouched] ++ [EMachineState.Spin] }).m_prize =
      (SlotMachine.generatePrize s).m_prize := by
    rw [generatePrize_m_prize, generatePrize_m_prize]
  obtain ⟨fuel0, g1, hspin⟩ := nextState_Spin_returns
    { m_state := EMachineState.Spin, m_rewardType := s.m_rewardType, m_prize := s.m_prize,
      m_countdown := 3,
      visited := s.visited ++ [EMachineState.ArmTouched] ++ [EMachineState.Spin] } g rfl hvalid
    (by rw [hnext]; exact hends)
  rw [hnext] at hspin
  have h1 : ((-1 : ℚ)) < dt := by linarith
  have h2 : s_barTimeout * 4 < dt := by
    simp only [s_barTimeout]
    linarith
  have h3 : (2 : ℚ) < dt := by linarith
  have hstart : ∀ fuel, SlotMachine.start fuel s g =
      Except.ok ({ m_state := EMachineState.ArmTouched, m_rewardType := s.m_rewardType,
                   m_prize := s.m_prize, m_countdown := -1,
                   visited := s.visited ++ [EMachineState.ArmTouched] }, g) := by
    intro fuel
    simp only [SlotMachine.start, hs, if_true]
    exact nextState_Initial fuel s g hs
  by_cases hp : prize = EPrize.None
  · refine ⟨fuel0, 4,
      { m_state := EMachineState.Initial, m_rewardType := s.m_rewardType,
        m_prize := (SlotMachine.generatePrize s).m_prize, m_countdown := -1,
        visited := s.visited ++ [EMachineState.ArmTouched] ++ [EMachineState.Spin] ++
          [EMachineState.SpinEnd] ++ [EMachineState.Win, EMachineState.End] ++
          [EMachineState.Initial] }, g1, fun fuel hfuel => ?_, rfl, by simp, fun _ => rfl,
      fun hne => absurd (by rw [hprize, hp]) hne⟩
    simp only [startThenAdvance, hstart fuel]
    rw [advances_succ fuel dt 3 _ _ g g
      ((advance_eq_nextState fuel dt _ g h1).trans (nextState_ArmTouched fuel _ g rfl))]
    rw [advances_succ fuel dt 2 _ _ g g1
      ((advance_eq_nextState fuel dt _ g hdt).trans (hspin fuel hfuel))]
    rw [advances_succ fuel dt 1 _
      { m_state := EMachineState.End, m_rewardType := s.m_rewardType,
        m_prize := (SlotMachine.generatePrize s).m_prize, m_countdown := -1,
        visited := s.visited ++ [EMachineState.ArmTouched] ++ [EMachineState.Spin] ++
          [EMachineState.SpinEnd] ++ [EMachineState.Win, EMachineState.End] } g1 g1
      ((advance_eq_nextState fuel dt _ g1 h2).trans (by
        rw [nextState_SpinEnd fuel _ g1 rfl]
        dsimp only
        rw [hprize]
        dsimp only
        rw [if_pos hp]))]
    rw [advances_succ fuel dt 0 _ _ g1 g1
      ((advance_eq_nextState fuel dt _ g1 h1).trans (nextState_End fuel _ g1 rfl))]
    rfl
  · refine ⟨fuel0, 5,
      { m_state := EMachineState.Initial, m_rewardType := s.m_rewardType,
        m_prize := (SlotMachine.generatePrize s).m_prize, m_countdown := -1,
        visited := s.visited ++ [EMachineState.ArmTouched] ++ [EMachineState.Spin] ++
          [EMachineState.SpinEnd] ++ [EMachineState.Win] ++ [EMachineState.End] ++
          [EMachineState.Initial] }, g1, fun fuel hfuel => ?_, rfl, by simp,
      fun hnone => absurd (by rw [hprize] at hnone; cases hnone; rfl) hp, fun _ => rfl⟩
    simp only [startThenAdvance, hstart fuel]
    rw [advances_succ fuel dt 4 _ _ g g
      ((advance_eq_nextState fuel dt _ g h1).trans (nextState_ArmTouched fuel _ g rfl))]
    rw [advances_succ fuel dt 3 _ _ g g1
      ((advance_eq_nextState fuel dt _ g hdt).trans (hspin fuel hfuel))]
    rw [advances_succ fuel dt 2 _
      { m_state := EMachineState.Win, m_rewardType := s.m_rewardType,
        m_prize := (SlotMachine.generatePrize s).m_prize, m_countdown := 2,
        visited := s.visited ++ [EMachineState.ArmTouched] ++ [EMachineState.Spin] ++
          [EMachineState.SpinEnd] ++ [EMachineState.Win] } g1 g1
      ((advance_eq_nextState fuel dt _ g1 h2).trans (by
        rw [nextState_SpinEnd fuel _ g1 rfl]
        dsimp only
        rw [hprize]
        dsimp only
        rw [if_neg hp]))]
    rw [advances_succ fuel dt 1 _ _ g1 g1
      ((advance_eq_nextState fuel dt _ g1 h3).trans (nextState_Win fuel _ g1 rfl))]
    rw [advances_succ fuel dt 0 _ _ g1 g1
      ((advance_eq_nextState fuel dt _ g1 h1).trans (nextState_End fuel _ g1 rfl))]
    rfl

/-- C3 from `Initial` with the cursor on the first element (the prize generated
is `None`), ticks of `4`, on the stream `0, 1, 2, ...`. -/
theorem C3_cycle_visits_each_state_once_witness :
    initialAtFirst.m_state = EMachineState.Initial ∧ ValidCursor initialAtFirst ∧
    (3 : ℚ) < 4 ∧
    (deref (SlotMachine.generatePrize initialAtFirst).m_prize = Except.ok EPrize.None →
      RedrawEnds countingDraws) ∧
    ∃ fuel0 n s1 g1,
      (∀ fuel, fuel0 ≤ fuel →
        startThenAdvance fuel 4 n initialAtFirst countingDraws = Except.ok (s1, g1)) ∧
      s1.m_state = EMachineState.Initial ∧
      s1.visited = initialAtFirst.visited ++ [EMachineState.ArmTouched, EMachineState.Spin,
        EMachineState.SpinEnd, EMachineState.Win, EMachineState.End, EMachineState.Initial] ∧
      (deref (SlotMachine.generatePrize initialAtFirst).m_prize = Except.ok EPrize.None →
        n = 4) ∧
      (deref (SlotMachine.generatePrize initialAtFirst).m_prize ≠ Except.ok EPrize.None →
        n = 5) :=
  ⟨rfl, by decide, by norm_num, fun _ => redrawEnds_countingDraws,
    C3_cycle_visits_each_state_once initialAtFirst countingDraws 4 rfl (by decide)
      (by norm_num) (fun _ => redrawEnds_countingDraws)⟩

/-! ## C6: `switchType` and the countdown -/

/-- C6: after `switchType()` the countdown carries nothing over: the call's
outcome is the same whatever the countdown was before; and when it returns,
the countdown is inactive (`-1`), or the machine is in `Spin`, `SpinEnd` or
`Win` and the countdown is the full duration that state's entry action sets
(`3`, `s_barTimeout * 4`, `2`).  The call does return, for every large enough
bound on the redraw loop, when the cursor is valid and the stream ends that
loop. -/
theorem C6_switchType_countdown_fresh (s : SlotMachine) (g : RandState) :
    (∀ fuel c, SlotMachine.switchType fuel { s with m_countdown := c } g =
      SlotMachine.switchType fuel s g) ∧
    (∀ fuel s1 g1, SlotMachine.switchType fuel s g = Except.ok (s1, g1) →
      (s1.m_countdown = -1 ∧ s1.m_countdown < 0) ∨
      (s1.m_state = EMachineState.Spin ∧ s1.m_countdown = 3) ∨
      (s1.m_state = EMachineState.SpinEnd ∧ s1.m_countdown = s_barTimeout * 4) ∨
      (s1.m_state = EMachineState.Win ∧ s1.m_countdown = 2)) ∧
    (ValidCursor s → RedrawEnds g →
      ∃ fuel0 s1 g1, ∀ fuel, fuel0 ≤ fuel →
        SlotMachine.switchType fuel s g = Except.ok (s1, g1)) := by
  refine ⟨fun fuel c => ?_, fun fuel s1 g1 hrun => ?_, fun hvalid hends => ?_⟩
  · rw [switchType_eq, switchType_eq]
    exact nextState_countdown fuel
      { m_state := EMachineState.cast (SlotMachine.rewound s.m_state),
        m_rewardType := SlotMachine.toggled s.m_rewardType,
        m_prize := s.m_prize, m_countdown := s.m_countdown, visited := s.visited } g c
  · rw [switchType_eq, cast_rewound] at hrun
    obtain ⟨st, rt, i, cd, vis⟩ := s
    cases st
    · rw [nextState_End _ _ _ rfl] at hrun
      cases hrun
      exact Or.inl ⟨rfl, by norm_num⟩
    · rw [nextState_Initial _ _ _ rfl] at hrun
      cases hrun
      exact Or.inl ⟨rfl, by norm_num⟩
    · rw [nextState_ArmTouched _ _ _ rfl] at hrun
      cases hrun
      exact Or.inr (Or.inl ⟨rfl, rfl⟩)
    · rw [nextState_Spin _ _ _ rfl] at hrun
      cases hd : deref (SlotMachine.generatePrize
          { m_state := EMachineState.Spin, m_rewardType := SlotMachine.toggled rt,
            m_prize := i, m_countdown := cd, visited := vis }).m_prize with
      | error e => simp [hd] at hrun
      | ok prize =>
        cases hg : generateSpinResult fuel prize g with
        | error e => simp [hd, hg] at hrun
        | ok r =>
          simp only [hd, hg] at hrun
          cases hrun
          exact Or.inr (Or.inr (Or.inl ⟨rfl, rfl⟩))
    · rw [nextState_SpinEnd _ _ _ rfl] at hrun
      cases hd : deref i with
      | error e => simp [hd] at hrun
      | ok prize =>
        simp only [hd] at hrun
        by_cases hp : prize = EPrize.None
        · simp only [hp, if_true] at hrun
          cases hrun
          exact Or.inl ⟨rfl, by norm_num⟩
        · simp only [hp, if_false] at hrun
          cases hrun
          exact Or.inr (Or.inr (Or.inr ⟨rfl, rfl⟩))
    · rw [nextState_Win _ _ _ rfl] at hrun
      cases hrun
      exact Or.inl ⟨rfl, by norm_num⟩
  · exact switchType_returns s g hvalid hends

/-- The call `switchType()` on `spinEndAtFirst`, stream `0, 1, 2, ...`, one
loop iteration allowed. -/
theorem switchType_spinEndAtFirst :
    SlotMachine.switchType 1 spinEndAtFirst countingDraws =
      Except.ok ({ m_state := EMachineState.SpinEnd, m_rewardType := s_rewardCoins, m_prize := 1,
                   m_countdown := s_barTimeout * 4, visited := [EMachineState.SpinEnd] },
        { countingDraws with pos := 8 }) := by
  rw [switchType_eq, cast_rewound, nextState_Spin _ _ _ rfl]
  rfl

/-- C6 on `spinEndAtFirst` and the stream `0, 1, 2, ...`: the call returns, in
`SpinEnd` with the countdown `s_barTimeout * 4`. -/
theorem C6_switchType_countdown_fresh_witness :
    ValidCursor spinEndAtFirst ∧ RedrawEnds countingDraws ∧
    (∃ fuel0 s1 g1, ∀ fuel, fuel0 ≤ fuel →
      SlotMachine.switchType fuel spinEndAtFirst countingDraws = Except.ok (s1, g1)) ∧
    ∃ s1 g1, SlotMachine.switchType 1 spinEndAtFirst countingDraws = Except.ok (s1, g1) ∧
      ((s1.m_countdown = -1 ∧ s1.m_countdown < 0) ∨
      (s1.m_state = EMachineState.Spin ∧ s1.m_countdown = 3) ∨
      (s1.m_state = EMachineState.SpinEnd ∧ s1.m_countdown = s_barTimeout * 4) ∨
      (s1.m_state = EMachineState.Win ∧ s1.m_countdown = 2)) :=
  ⟨by decide, redrawEnds_countingDraws,
    (C6_switchType_countdown_fresh spinEndAtFirst countingDraws).2.2 (by decide)
      redrawEnds_countingDraws,
    _, _, switchType_spinEndAtFirst,
    (C6_switchType_countdown_fresh spinEndAtFirst countingDraws).2.1 1 _ _
      switchType_spinEndAtFirst⟩

/-- In the configuration `winAtNone` (state `Win`, cursor on `None`), which no
sequence of public calls brings about, `switchType()` rewinds to `SpinEnd` and
advances into `Win`, whose entry action `showPrize(None)` advances once more;
the call returns in `End`. -/
theorem switchType_winAtNone :
    SlotMachine.switchType 0 winAtNone countingDraws =
      Except.ok ({ m_state := EMachineState.End, m_rewardType := s_rewardCoins, m_prize := 1,
                   m_countdown := -1,
                   visited := [EMachineState.Win, EMachineState.End] }, countingDraws) ∧
    EMachineState.End ≠ winAtNone.m_state := by
  refine ⟨?_, by decide⟩
  rw [switchType_eq, cast_rewound, nextState_SpinEnd _ _ _ rfl]
  rfl

/-- In every configuration other than state `Win` with the cursor on `None`,
`switchType()` rewinds the state by one step (`Initial` wraps to `End`) and
advances again, so that whenever the call returns the state is the one before
the call and that state has been entered once more.  The call does return, for
every large enough bound on the redraw loop, when the cursor is valid and the
stream ends that loop. -/
theorem switchType_keeps_state_unless_winAtNone (s : SlotMachine) (g : RandState)
    (hnot : ¬ (s.m_state = EMachineState.Win ∧ deref s.m_prize = Except.ok EPrize.None)) :
    SlotMachine.advanced (EMachineState.cast (SlotMachine.rewound s.m_state)) = s.m_state ∧
    (s.m_state = EMachineState.Initial →
      EMachineState.cast (SlotMachine.rewound s.m_state) = EMachineState.End) ∧
    (∀ fuel s1 g1, SlotMachine.switchType fuel s g = Except.ok (s1, g1) →
      s1.m_state = s.m_state ∧ s1.visited = s.visited ++ [s.m_state]) ∧
    (ValidCursor s → RedrawEnds g →
      ∃ fuel0 s1 g1, (∀ fuel, fuel0 ≤ fuel →
        SlotMachine.switchType fuel s g = Except.ok (s1, g1)) ∧ s1.m_state = s.m_state) := by
  refine ⟨?_, ?_, fun fuel s1 g1 hrun => switchType_state fuel s g s1 g1 hnot hrun, ?_⟩
  · rw [cast_rewound, advanced_eq]
    cases s.m_state <;> rfl
  · intro hs
    rw [cast_rewound, hs]
  · intro hvalid hends
    obtain ⟨fuel0, s1, g1, hret⟩ := switchType_returns s g hvalid hends
    exact ⟨fuel0, s1, g1, hret, (switchType_state fuel0 s g s1 g1 hnot (hret fuel0 le_rfl)).1⟩

/-! ## C8, C9, C10: `nextState` out of `SpinEnd`, `start`, `update` -/

/-- C8: the advance out of `SpinEnd`, with the cursor on a prize, returns; if
the prize is `None` it passes through `Win` and ends in `End` with the
countdown inactive; if the prize is a winning tier it ends in `Win` with an
active countdown. -/
theorem C8_advance_out_of_SpinEnd (fuel : Nat) (s : SlotMachine) (g : RandState) (prize : EPrize)
    (hs : s.m_state = EMachineState.SpinEnd) (hprize : deref s.m_prize = Except.ok prize) :
    ∃ s1, SlotMachine.nextState fuel s g = Except.ok (s1, g) ∧
      (prize = EPrize.None →
        s1.m_state = EMachineState.End ∧ s1.m_countdown < 0 ∧
        s1.visited = s.visited ++ [EMachineState.Win, EMachineState.End]) ∧
      (prize ≠ EPrize.None →
        s1.m_state = EMachineState.Win ∧ 0 ≤ s1.m_countdown ∧
        s1.visited = s.visited ++ [EMachineState.Win]) := by
  rw [nextState_SpinEnd fuel s g hs, hprize]
  by_cases hp : prize = EPrize.None
  · dsimp only
    rw [if_pos hp]
    exact ⟨{ m_state := EMachineState.End, m_rewardType := s.m_rewardType, m_prize := s.m_prize,
             m_countdown := -1,
             visited := s.visited ++ [EMachineState.Win, EMachineState.End] },
      rfl, fun _ => ⟨rfl, by norm_num, rfl⟩, fun h => absurd hp h⟩
  · dsimp only
    rw [if_neg hp]
    exact ⟨{ m_state := EMachineState.Win, m_rewardType := s.m_rewardType, m_prize := s.m_prize,
             m_countdown := 2, visited := s.visited ++ [EMachineState.Win] },
      rfl, fun h => absurd h hp, fun _ => ⟨rfl, by norm_num, rfl⟩⟩

/-- C8 on `spinEndAtFirst`, whose cursor is on `C1000k`. -/
theorem C8_advance_out_of_SpinEnd_witness :
    spinEndAtFirst.m_state = EMachineState.SpinEnd ∧
    deref spinEndAtFirst.m_prize = Except.ok EPrize.C1000k ∧
    ∃ s1, SlotMachine.nextState 0 spinEndAtFirst countingDraws = Except.ok (s1, countingDraws) ∧
      (EPrize.C1000k = EPrize.None →
        s1.m_state = EMachineState.End ∧ s1.m_countdown < 0 ∧
        s1.visited = spinEndAtFirst.visited ++ [EMachineState.Win, EMachineState.End]) ∧
      (EPrize.C1000k ≠ EPrize.None →
        s1.m_state = EMachineState.Win ∧ 0 ≤ s1.m_countdown ∧
        s1.visited = spinEndAtFirst.visited ++ [EMachineState.Win]) :=
  ⟨rfl, rfl, C8_advance_out_of_SpinEnd 0 spinEndAtFirst countingDraws EPrize.C1000k rfl rfl⟩

/-- C9: in a state other than `Initial`, `start()` returns with nothing
changed; in `Initial` it is one call of `nextState`, which returns in
`ArmTouched` with the countdown inactive, reward type and cursor as they
were. -/
theorem C9_start_only_from_Initial (fuel : Nat) (s : SlotMachine) (g : RandState) :
    (s.m_state ≠ EMachineState.Initial → SlotMachine.start fuel s g = Except.ok (s, g)) ∧
    (s.m_state = EMachineState.Initial →
      SlotMachine.start fuel s g = SlotMachine.nextState fuel s g ∧
      ∃ s1, SlotMachine.start fuel s g = Except.ok (s1, g) ∧
        s1.m_state = EMachineState.ArmTouched ∧ s1.m_countdown < 0 ∧
        s1.visited = s.visited ++ [EMachineState.ArmTouched] ∧
        s1.m_rewardType = s.m_rewardType ∧ s1.m_prize = s.m_prize) := by
  constructor
  · intro hs
    simp [SlotMachine.start, hs]
  · intro hs
    have hstart : SlotMachine.start fuel s g = SlotMachine.nextState fuel s g := by
      simp [SlotMachine.start, hs]
    exact ⟨hstart,
      { m_state := EMachineState.ArmTouched, m_rewardType := s.m_rewardType,
        m_prize := s.m_prize, m_countdown := -1,
        visited := s.visited ++ [EMachineState.ArmTouched] },
      by rw [hstart, nextState_Initial fuel s g hs], rfl, by norm_num, rfl, rfl, rfl⟩

/-- C9 on `winAtNone` (not in `Initial`) and on the constructed controller. -/
theorem C9_start_only_from_Initial_witness :
    (winAtNone.m_state ≠ EMachineState.Initial ∧
      SlotMachine.start 0 winAtNone countingDraws = Except.ok (winAtNone, countingDraws)) ∧
    (SlotMachine.new.m_state = EMachineState.Initial ∧
      SlotMachine.start 0 SlotMachine.new countingDraws =
        SlotMachine.nextState 0 SlotMachine.new countingDraws) :=
  ⟨⟨by decide, (C9_start_only_from_Initial 0 winAtNone countingDraws).1 (by decide)⟩,
    ⟨rfl, ((C9_start_only_from_Initial 0 SlotMachine.new countingDraws).2 rfl).1⟩⟩

/-- C10: with times as exact numbers, `update(dt)` on an inactive countdown
changes nothing; on an active countdown `c` with `c - dt ≥ 0` it sets the
countdown to `c - dt` and nothing else; on an active countdown with
`c - dt < 0` it is one call of `nextState` (on the decremented countdown,
which `nextState` does not read). -/
theorem C10_update_polled_countdown (fuel : Nat) (s : SlotMachine) (g : RandState) (dt : ℚ) :
    (s.m_countdown < 0 → SlotMachine.update fuel s g dt = Except.ok (s, g)) ∧
    (0 ≤ s.m_countdown → 0 ≤ s.m_countdown - dt →
      SlotMachine.update fuel s g dt =
        Except.ok ({ s with m_countdown := s.m_countdown - dt }, g)) ∧
    (0 ≤ s.m_countdown → s.m_countdown - dt < 0 →
      SlotMachine.update fuel s g dt =
        SlotMachine.nextState fuel { s with m_countdown := s.m_countdown - dt } g ∧
      SlotMachine.update fuel s g dt = SlotMachine.nextState fuel s g) := by
  refine ⟨fun hneg => ?_, fun hact hleft => ?_, fun hact hexp => ?_⟩
  · simp [SlotMachine.update, not_le.mpr hneg]
  · simp [SlotMachine.update, hact, not_lt.mpr hleft]
  · have hupd : SlotMachine.update fuel s g dt =
        SlotMachine.nextState fuel { s with m_countdown := s.m_countdown - dt } g := by
      simp only [SlotMachine.update, ge_iff_le, hact, if_true, hexp]
    exact ⟨hupd, by rw [hupd, nextState_countdown]⟩

/-- C10 on the constructed controller (countdown `-1`) and on `spinning`
(countdown `3`) with ticks of `1` and of `4`. -/
theorem C10_update_polled_countdown_witness :
    (SlotMachine.new.m_countdown < 0 ∧
      SlotMachine.update 0 SlotMachine.new countingDraws 1 =
        Except.ok (SlotMachine.new, countingDraws)) ∧
    (0 ≤ spinning.m_countdown ∧ 0 ≤ spinning.m_countdown - 1 ∧
      SlotMachine.update 0 spinning countingDraws 1 =
        Except.ok ({ spinning with m_countdown := spinning.m_countdown - 1 }, countingDraws)) ∧
    (0 ≤ spinning.m_countdown ∧ spinning.m_countdown - 4 < 0 ∧
      SlotMachine.update 0 spinning countingDraws 4 =
        SlotMachine.nextState 0 spinning countingDraws) :=
  ⟨⟨by norm_num [SlotMachine.new],
      (C10_update_polled_countdown 0 SlotMachine.new countingDraws 1).1
        (by norm_num [SlotMachine.new])⟩,
    ⟨by norm_num [spinning], by norm_num [spinning],
      (C10_update_polled_countdown 0 spinning countingDraws 1).2.1
        (by norm_num [spinning]) (by norm_num [spinning])⟩,
    ⟨by norm_num [spinning], by norm_num [spinning],
      ((C10_update_polled_countdown 0 spinning countingDraws 4).2.2
        (by norm_num [spinning]) (by norm_num [spinning])).2⟩⟩

/-! ## Reel-result generation: range, termination, tiers -/

/-- Whatever the redraw loop returns on a grid whose entries lie in
`[0, s_fruitCount)`: only the centre of reel 2 has changed, it differs from the
centre of reel 1, and it lies in `[0, s_fruitCount)` again. -/
theorem redrawLoop_ok_range (a b c d e f h : Int) :
    ∀ (fuel : Nat) (x : Int) (g : RandState) (result : PrizeMatrix_t) (g1 : RandState),
      0 ≤ x → x < s_fruitCount →
      redrawLoop s_fruitCount fuel [[a, c, b], [d, c, e], [f, x, h]] g =
        Except.ok (result, g1) →
      ∃ y, result = [[a, c, b], [d, c, e], [f, y, h]] ∧ y ≠ c ∧ 0 ≤ y ∧ y < s_fruitCount := by
  intro fuel
  induction fuel with
  | zero =>
    intro x g result g1 hx0 hx1 hrun
    unfold redrawLoop at hrun
    by_cases hx : x = c
    · simp [getEntry, hx] at hrun
    · simp [getEntry, hx] at hrun
      exact ⟨x, hrun.1.symm, hx, hx0, hx1⟩
  | succ n ih =>
    intro x g result g1 hx0 hx1 hrun
    unfold redrawLoop at hrun
    by_cases hx : x = c
    · simp only [getEntry, hx] at hrun
      simp only [List.getD_cons_succ, List.getD_cons_zero, if_true, cRem, rand, setEntry] at hrun
      have hb := tmod_cast_bounds (g.draws g.pos) s_fruitCount (by decide)
      exact ih _ _ result g1 hb.1 hb.2 (by simpa [s_fruitCount] using hrun)
    · simp [getEntry, hx] at hrun
      exact ⟨x, hrun.1.symm, hx, hx0, hx1⟩

/-- The redraw loop entered with all three centres equal to `c`, with `k`
draws of remainder `c` ahead, exhausts every bound up to `k`. -/
theorem redrawLoop_short (a b c d e f h : Int) :
    ∀ (fuel : Nat) (g : RandState) (k : Nat), fuel ≤ k → (∀ j, j < k → fruitAt g j = c) →
      redrawLoop s_fruitCount fuel [[a, c, b], [d, c, e], [f, c, h]] g =
        Except.error Fault.outOfFuel := by
  intro fuel
  induction fuel with
  | zero =>
    intro g k _ _
    unfold redrawLoop
    simp [getEntry]
  | succ n ih =>
    intro g k hfuel hsame
    have h0 : Int.tmod (g.draws g.pos) 5 = c := by
      simpa [fruitAt, s_fruitCount] using hsame 0 (by omega)
    have hrec := ih { g with pos := g.pos + 1 } (k - 1) (by omega) (fun j hj => by
      have := hsame (j + 1) (by omega)
      simpa [fruitAt, Nat.add_assoc, Nat.add_comm 1 j] using this)
    unfold redrawLoop
    simp only [getEntry, List.getD_cons_succ, List.getD_cons_zero, if_true, cRem, rand,
      s_fruitCount, setEntry]
    simp only [s_fruitCount] at hrec
    simp [h0, hrec]

/-- With a single symbol the redraw loop exhausts every bound. -/
theorem redrawLoop_one (a b d e f h : Int) :
    ∀ (fuel : Nat) (g : RandState),
      redrawLoop 1 fuel [[a, 0, b], [d, 0, e], [f, 0, h]] g = Except.error Fault.outOfFuel := by
  intro fuel
  induction fuel with
  | zero =>
    intro g
    unfold redrawLoop
    simp [getEntry]
  | succ n ih =>
    intro g
    unfold redrawLoop
    simp only [getEntry, List.getD_cons_succ, List.getD_cons_zero, if_true, cRem, rand, setEntry]
    simp [Int.tmod_one, ih]

/-- With a single symbol `generateSpinResult(None)` returns for no bound. -/
theorem generateSpinResultWith_one (fuel : Nat) (g : RandState) :
    generateSpinResultWith 1 fuel EPrize.None g = Except.error Fault.outOfFuel := by
  simp [generateSpinResultWith, fillReels, fillReel, cRem, rand, setEntry, centralFruit,
    Int.tmod_one, List.replicate, redrawLoop_one]

/-! ## The state machine: what every advance establishes -/

/-- With `s_fruitCount` symbols the redraw loop can only fail by exhausting its bound. -/
theorem redrawLoop_fault :
    ∀ (fuel : Nat) (result : PrizeMatrix_t) (g : RandState) (e : Fault),
      redrawLoop s_fruitCount fuel result g = Except.error e → e = Fault.outOfFuel := by
  intro fuel
  induction fuel with
  | zero =>
    intro result g e hrun
    unfold redrawLoop at hrun
    split at hrun
    · cases hrun
      rfl
    · cases hrun
  | succ n ih =>
    intro result g e hrun
    unfold redrawLoop at hrun
    split at hrun
    · simp only [cRem, s_fruitCount] at hrun
      exact ih _ _ e (by simpa [s_fruitCount] using hrun)
    · cases hrun

/-- The method `generateSpinResult` can only fail by exhausting the bound on its loop. -/
theorem generateSpinResult_fault (fuel : Nat) (prize : EPrize) (g : RandState) (e : Fault)
    (hrun : generateSpinResult fuel prize g = Except.error e) : e = Fault.outOfFuel := by
  cases prize with
  | None =>
    rw [generateSpinResult_None] at hrun
    exact redrawLoop_fault fuel _ _ e hrun
  | C1k =>
    rw [generateSpinResult_C1k] at hrun
    cases hrun
  | C500k =>
    rw [generateSpinResult_C500k] at hrun
    cases hrun
  | C1000k =>
    rw [generateSpinResult_C1000k] at hrun
    cases hrun

/-- What holds of the configuration in which `nextState` returns, whatever the
configuration it was called in. -/
theorem nextState_ok (fuel : Nat) (s : SlotMachine) (g : RandState) (s1 : SlotMachine)
    (g1 : RandState) (hrun : SlotMachine.nextState fuel s g = Except.ok (s1, g1)) :
    s1.m_rewardType = s.m_rewardType ∧
    (0 ≤ s1.m_countdown ↔ Timed s1.m_state) ∧
    (s.m_state ≠ EMachineState.Spin → s1.m_prize = s.m_prize) ∧
    (s.m_state = EMachineState.Spin → s1.m_prize = (SlotMachine.generatePrize s).m_prize) ∧
    (s1.m_state = EMachineState.Win →
      ∃ prize, deref s1.m_prize = Except.ok prize ∧ prize ≠ EPrize.None) := by
  obtain ⟨st, rt, i, cd, vis⟩ := s
  cases st
  · rw [nextState_Initial _ _ _ rfl] at hrun
    cases hrun
    exact ⟨rfl, iff_of_false (by norm_num) (show ¬ Timed EMachineState.ArmTouched by decide),
      fun _ => rfl, (fun h => by cases h), (fun h => by cases h)⟩
  · rw [nextState_ArmTouched _ _ _ rfl] at hrun
    cases hrun
    exact ⟨rfl, iff_of_true (by norm_num) (show Timed EMachineState.Spin by decide),
      fun _ => rfl, (fun h => by cases h), (fun h => by cases h)⟩
  · rw [nextState_Spin _ _ _ rfl] at hrun
    cases hd : deref (SlotMachine.generatePrize
        { m_state := EMachineState.Spin, m_rewardType := rt,
          m_prize := i, m_countdown := cd, visited := vis }).m_prize with
    | error e => simp [hd] at hrun
    | ok prize =>
      cases hg : generateSpinResult fuel prize g with
      | error e => simp [hd, hg] at hrun
      | ok r =>
        simp only [hd, hg] at hrun
        cases hrun
        exact ⟨rfl, iff_of_true (by norm_num [s_barTimeout])
            (show Timed EMachineState.SpinEnd by decide),
          fun h => absurd rfl h, fun _ => rfl, (fun h => by cases h)⟩
  · rw [nextState_SpinEnd _ _ _ rfl] at hrun
    cases hd : deref i with
    | error e => simp [hd] at hrun
    | ok prize =>
      simp only [hd] at hrun
      by_cases hp : prize = EPrize.None
      · simp only [hp, if_true] at hrun
        cases hrun
        exact ⟨rfl, iff_of_false (by norm_num) (show ¬ Timed EMachineState.End by decide),
          fun _ => rfl, (fun h => by cases h), (fun h => by cases h)⟩
      · simp only [hp, if_false] at hrun
        cases hrun
        exact ⟨rfl, iff_of_true (by norm_num) (show Timed EMachineState.Win by decide),
          fun _ => rfl, (fun h => by cases h), fun _ => ⟨prize, hd, hp⟩⟩
  · rw [nextState_Win _ _ _ rfl] at hrun
    cases hrun
    exact ⟨rfl, iff_of_false (by norm_num) (show ¬ Timed EMachineState.End by decide),
      fun _ => rfl, (fun h => by cases h), (fun h => by cases h)⟩
  · rw [nextState_End _ _ _ rfl] at hrun
    cases hrun
    exact ⟨rfl, iff_of_false (by norm_num) (show ¬ Timed EMachineState.Initial by decide),
      fun _ => rfl, (fun h => by cases h), (fun h => by cases h)⟩

/-- With a valid cursor `nextState` dereferences nothing it should not. -/
theorem nextState_defined (fuel : Nat) (s : SlotMachine) (g : RandState)
    (hvalid : ValidCursor s) :
    SlotMachine.nextState fuel s g ≠ Except.error Fault.undefinedBehaviour := by
  intro hrun
  obtain ⟨st, rt, i, cd, vis⟩ := s
  cases st
  · rw [nextState_Initial _ _ _ rfl] at hrun
    cases hrun
  · rw [nextState_ArmTouched _ _ _ rfl] at hrun
    cases hrun
  · rw [nextState_Spin _ _ _ rfl] at hrun
    obtain ⟨prize, hprize⟩ := deref_valid _ (validCursor_generatePrize _ hvalid)
    rw [hprize] at hrun
    cases hg : generateSpinResult fuel prize g with
    | error e =>
      have he := generateSpinResult_fault fuel prize g e hg
      subst he
      simp [hg] at hrun
    | ok r => simp [hg] at hrun
  · rw [nextState_SpinEnd _ _ _ rfl] at hrun
    obtain ⟨prize, hprize⟩ := deref_valid i hvalid
    rw [hprize] at hrun
    by_cases hp : prize = EPrize.None
    · simp [hp] at hrun
    · simp [hp] at hrun
  · rw [nextState_Win _ _ _ rfl] at hrun
    cases hrun
  · rw [nextState_End _ _ _ rfl] at hrun
    cases hrun

/-- With a valid cursor, `nextState` returns for every large enough bound, on a
stream that ends the redraw loop. -/
theorem nextState_returns (s : SlotMachine) (g : RandState) (hvalid : ValidCursor s)
    (hends : RedrawEnds g) :
    ∃ fuel0 s1 g1, ∀ fuel, fuel0 ≤ fuel →
      SlotMachine.nextState fuel s g = Except.ok (s1, g1) := by
  obtain ⟨st, rt, i, cd, vis⟩ := s
  cases st
  · exact ⟨0, _, _, fun fuel _ => nextState_Initial fuel _ g rfl⟩
  · exact ⟨0, _, _, fun fuel _ => nextState_ArmTouched fuel _ g rfl⟩
  · obtain ⟨fuel0, g1, hret⟩ := nextState_Spin_returns
      { m_state := EMachineState.Spin, m_rewardType := rt,
        m_prize := i, m_countdown := cd, visited := vis } g rfl hvalid (fun _ => hends)
    exact ⟨fuel0, _, g1, hret⟩
  · obtain ⟨prize, hprize⟩ := deref_valid i hvalid
    by_cases hp : prize = EPrize.None
    · exact ⟨0, _, _, fun fuel _ => by
        rw [nextState_SpinEnd _ _ _ rfl]
        simp only [hprize, hp, if_true]
        rfl⟩
    · exact ⟨0, _, _, fun fuel _ => by
        rw [nextState_SpinEnd _ _ _ rfl]
        simp only [hprize, hp, if_false]
        rfl⟩
  · exact ⟨0, _, _, fun fuel _ => nextState_Win fuel _ g rfl⟩
  · exact ⟨0, _, _, fun fuel _ => nextState_End fuel _ g rfl⟩

/-! ## What every call keeps true -/

/-- Exchanging the reward type twice gives it back. -/
theorem toggled_toggled (rewardType : String) :
    SlotMachine.toggled (SlotMachine.toggled rewardType) = rewardType := by
  unfold SlotMachine.toggled
  by_cases h1 : rewardType = s_rewardChips
  · subst h1
    decide
  · by_cases h2 : rewardType = s_rewardCoins
    · subst h2
      decide
    · simp [h1, h2]

/-- Exchanging one of the two reward types gives one of the two. -/
theorem toggled_two (rewardType : String)
    (h : rewardType = s_rewardCoins ∨ rewardType = s_rewardChips) :
    SlotMachine.toggled rewardType = s_rewardCoins ∨
      SlotMachine.toggled rewardType = s_rewardChips := by
  rcases h with rfl | rfl
  · exact Or.inr (by decide)
  · exact Or.inl (by decide)

/-- Validity of the cursor depends on `m_prize` alone. -/
theorem validCursor_of_m_prize (s s1 : SlotMachine) (h : s1.m_prize = s.m_prize)
    (hvalid : ValidCursor s) : ValidCursor s1 := by
  unfold ValidCursor at hvalid ⊢
  rw [h]
  exact hvalid

/-- An advance keeps the cursor valid. -/
theorem nextState_validCursor (fuel : Nat) (s : SlotMachine) (g : RandState) (s1 : SlotMachine)
    (g1 : RandState) (hrun : SlotMachine.nextState fuel s g = Except.ok (s1, g1))
    (hvalid : ValidCursor s) : ValidCursor s1 := by
  have hok := nextState_ok fuel s g s1 g1 hrun
  by_cases hs : s.m_state = EMachineState.Spin
  · unfold ValidCursor
    rw [hok.2.2.2.1 hs]
    exact validCursor_generatePrize s hvalid
  · exact validCursor_of_m_prize s s1 (hok.2.2.1 hs) hvalid

/-- An advance out of a sound configuration ends in a sound configuration. -/
theorem nextState_sound (fuel : Nat) (s : SlotMachine) (g : RandState) (s1 : SlotMachine)
    (g1 : RandState) (hrun : SlotMachine.nextState fuel s g = Except.ok (s1, g1))
    (hvalid : ValidCursor s)
    (hreward : s.m_rewardType = s_rewardCoins ∨ s.m_rewardType = s_rewardChips) :
    Sound s1 := by
  have hok := nextState_ok fuel s g s1 g1 hrun
  exact ⟨nextState_validCursor fuel s g s1 g1 hrun hvalid, hok.2.1, by rw [hok.1]; exact hreward⟩

/-- Every call keeps a configuration sound. -/
theorem call_sound (fuel : Nat) (c : Call) (s : SlotMachine) (g : RandState) (s1 : SlotMachine)
    (g1 : RandState) (hrun : call fuel c s g = Except.ok (s1, g1)) (hsound : Sound s) :
    Sound s1 := by
  obtain ⟨hvalid, hcd, hreward⟩ := hsound
  cases c with
  | start =>
    simp only [call, SlotMachine.start] at hrun
    split at hrun
    · exact nextState_sound fuel s g s1 g1 hrun hvalid hreward
    · cases hrun
      exact ⟨hvalid, hcd, hreward⟩
  | switchType =>
    simp only [call] at hrun
    rw [switchType_eq] at hrun
    exact nextState_sound fuel _ g s1 g1 hrun hvalid (toggled_two _ hreward)
  | update dt =>
    simp only [call, SlotMachine.update] at hrun
    split at hrun
    · rename_i hact
      split at hrun
      · exact nextState_sound fuel _ g s1 g1 hrun hvalid hreward
      · rename_i hleft
        cases hrun
        exact ⟨hvalid, iff_of_true (not_lt.mp hleft) (hcd.mp hact), hreward⟩
    · cases hrun
      exact ⟨hvalid, hcd, hreward⟩
  | onFinishSequence =>
    simp only [call, SlotMachine.onFinishSequence] at hrun
    exact nextState_sound fuel s g s1 g1 hrun hvalid hreward
  | generatePrize =>
    simp only [call] at hrun
    cases hrun
    refine ⟨validCursor_generatePrize s hvalid, ?_, ?_⟩
    · rw [generatePrize_eq]
      exact hcd
    · rw [generatePrize_eq]
      exact hreward

/-- With a valid cursor no call runs into undefined behaviour. -/
theorem call_defined (fuel : Nat) (c : Call) (s : SlotMachine) (g : RandState)
    (hvalid : ValidCursor s) : call fuel c s g ≠ Except.error Fault.undefinedBehaviour := by
  intro hrun
  cases c with
  | start =>
    simp only [call, SlotMachine.start] at hrun
    split at hrun
    · exact nextState_defined fuel s g hvalid hrun
    · cases hrun
  | switchType =>
    simp only [call] at hrun
    rw [switchType_eq] at hrun
    refine nextState_defined fuel _ g ?_ hrun
    exact hvalid
  | update dt =>
    simp only [call, SlotMachine.update] at hrun
    split at hrun
    · split at hrun
      · refine nextState_defined fuel _ g ?_ hrun
        exact hvalid
      · cases hrun
    · cases hrun
  | onFinishSequence =>
    simp only [call, SlotMachine.onFinishSequence] at hrun
    exact nextState_defined fuel s g hvalid hrun
  | generatePrize =>
    simp only [call] at hrun
    cases hrun

/-- Every public call keeps the cursor of a machine in `Win` on a winning tier. -/
theorem call_winHasPrize (fuel : Nat) (c : Call) (s : SlotMachine) (g : RandState)
    (s1 : SlotMachine) (g1 : RandState) (hpublic : c.isPublic = true)
    (hrun : call fuel c s g = Except.ok (s1, g1)) (hwin : WinHasPrize s) : WinHasPrize s1 := by
  cases c with
  | start =>
    simp only [call, SlotMachine.start] at hrun
    split at hrun
    · exact (nextState_ok fuel s g s1 g1 hrun).2.2.2.2
    · cases hrun
      exact hwin
  | switchType =>
    simp only [call] at hrun
    rw [switchType_eq] at hrun
    exact (nextState_ok fuel _ g s1 g1 hrun).2.2.2.2
  | update dt =>
    simp only [call, SlotMachine.update] at hrun
    split at hrun
    · split at hrun
      · exact (nextState_ok fuel _ g s1 g1 hrun).2.2.2.2
      · cases hrun
        exact hwin
    · cases hrun
      exact hwin
  | onFinishSequence =>
    simp only [call, SlotMachine.onFinishSequence] at hrun
    exact (nextState_ok fuel s g s1 g1 hrun).2.2.2.2
  | generatePrize => cases hpublic

/-- The constructed controller is sound. -/
theorem sound_new : Sound SlotMachine.new :=
  ⟨by decide, iff_of_false (by norm_num [SlotMachine.new])
    (show ¬ Timed EMachineState.Initial by decide), Or.inr rfl⟩

/-- Every sequence of calls keeps a configuration sound. -/
theorem calls_sound (fuel : Nat) :
    ∀ (cs : List Call) (s : SlotMachine) (g : RandState) (s1 : SlotMachine) (g1 : RandState),
      calls fuel cs s g = Except.ok (s1, g1) → Sound s → Sound s1 := by
  intro cs
  induction cs with
  | nil =>
    intro s g s1 g1 hrun hsound
    simp only [calls] at hrun
    cases hrun
    exact hsound
  | cons c rest ih =>
    intro s g s1 g1 hrun hsound
    simp only [calls] at hrun
    cases hc : call fuel c s g with
    | error e => simp [hc] at hrun
    | ok r =>
      obtain ⟨s2, g2⟩ := r
      simp only [hc] at hrun
      exact ih s2 g2 s1 g1 hrun (call_sound fuel c s g s2 g2 hc hsound)

/-- From a sound configuration no sequence of calls runs into undefined behaviour. -/
theorem calls_defined (fuel : Nat) :
    ∀ (cs : List Call) (s : SlotMachine) (g : RandState), Sound s →
      calls fuel cs s g ≠ Except.error Fault.undefinedBehaviour := by
  intro cs
  induction cs with
  | nil =>
    intro s g _ hrun
    simp only [calls] at hrun
    cases hrun
  | cons c rest ih =>
    intro s g hsound hrun
    simp only [calls] at hrun
    cases hc : call fuel c s g with
    | error e =>
      simp only [hc] at hrun
      cases hrun
      exact call_defined fuel c s g hsound.1 hc
    | ok r =>
      obtain ⟨s2, g2⟩ := r
      simp only [hc] at hrun
      exact ih s2 g2 (call_sound fuel c s g s2 g2 hc hsound) hrun

/-- Every sequence of public calls keeps the cursor of a machine in `Win` on a
winning tier. -/
theorem calls_winHasPrize (fuel : Nat) :
    ∀ (cs : List Call) (s : SlotMachine) (g : RandState) (s1 : SlotMachine) (g1 : RandState),
      (∀ c, c ∈ cs → c.isPublic = true) →
      calls fuel cs s g = Except.ok (s1, g1) → WinHasPrize s → WinHasPrize s1 := by
  intro cs
  induction cs with
  | nil =>
    intro s g s1 g1 _ hrun hwin
    simp only [calls] at hrun
    cases hrun
    exact hwin
  | cons c rest ih =>
    intro s g s1 g1 hpublic hrun hwin
    simp only [calls] at hrun
    cases hc : call fuel c s g with
    | error e => simp [hc] at hrun
    | ok r =>
      obtain ⟨s2, g2⟩ := r
      simp only [hc] at hrun
      exact ih s2 g2 s1 g1 (fun d hd => hpublic d (List.mem_cons_of_mem c hd)) hrun
        (call_winHasPrize fuel c s g s2 g2 (hpublic c (List.mem_cons_self c rest)) hc hwin)

/-- The constructed controller, on the stream `0, 1, 2, ...`, after `start()`,
the arm's callback and two ticks of `4`: it rests in `Win`. -/
theorem calls_to_win :
    calls 0 [Call.start, Call.onFinishSequence, Call.update 4, Call.update 4]
        SlotMachine.new countingDraws =
      Except.ok (winAfterFirstSpin, { countingDraws with pos := 6 }) := by
  have h1 : call 0 Call.start SlotMachine.new countingDraws =
      Except.ok ({ m_state := EMachineState.ArmTouched, m_rewardType := s_rewardChips,
                   m_prize := 5, m_countdown := -1,
                   visited := [EMachineState.ArmTouched] }, countingDraws) := by
    simp only [call, SlotMachine.start, SlotMachine.new, if_true]
    rw [nextState_Initial _ _ _ rfl]
    rfl
  have h2 : call 0 Call.onFinishSequence
      { m_state := EMachineState.ArmTouched, m_rewardType := s_rewardChips,
        m_prize := 5, m_countdown := -1, visited := [EMachineState.ArmTouched] } countingDraws =
      Except.ok ({ m_state := EMachineState.Spin, m_rewardType := s_rewardChips,
                   m_prize := 5, m_countdown := 3,
                   visited := [EMachineState.ArmTouched, EMachineState.Spin] },
        countingDraws) := by
    simp only [call, SlotMachine.onFinishSequence]
    rw [nextState_ArmTouched _ _ _ rfl]
    rfl
  have h3 : call 0 (Call.update 4)
      { m_state := EMachineState.Spin, m_rewardType := s_rewardChips,
        m_prize := 5, m_countdown := 3,
        visited := [EMachineState.ArmTouched, EMachineState.Spin] } countingDraws =
      Except.ok ({ m_state := EMachineState.SpinEnd, m_rewardType := s_rewardChips,
                   m_prize := 0, m_countdown := s_barTimeout * 4,
                   visited := [EMachineState.ArmTouched, EMachineState.Spin,
                     EMachineState.SpinEnd] }, { countingDraws with pos := 6 }) := by
    simp only [call, SlotMachine.update]
    rw [if_pos (by norm_num), if_pos (by norm_num), nextState_Spin _ _ _ rfl]
    rfl
  have h4 : call 0 (Call.update 4)
      { m_state := EMachineState.SpinEnd, m_rewardType := s_rewardChips,
        m_prize := 0, m_countdown := s_barTimeout * 4,
        visited := [EMachineState.ArmTouched, EMachineState.Spin, EMachineState.SpinEnd] }
      { countingDraws with pos := 6 } =
      Except.ok (winAfterFirstSpin, { countingDraws with pos := 6 }) := by
    simp only [call, SlotMachine.update]
    rw [if_pos (by norm_num [s_barTimeout]), if_pos (by norm_num [s_barTimeout]),
      nextState_SpinEnd _ _ _ rfl]
    rfl
  simp only [calls, h1, h2, h3, h4]

/-- The stream `0, 1, 2, ...` after the six draws of the first spin still ends
the redraw loop at its first redraw. -/
theorem redrawEnds_countingDraws_six : RedrawEnds { countingDraws with pos := 6 } :=
  ⟨0, by decide⟩

/-- A call of `switchType()` that returns has exchanged the reward type. -/
theorem switchType_rewardType (fuel : Nat) (s : SlotMachine) (g : RandState) (s1 : SlotMachine)
    (g1 : RandState) (hrun : SlotMachine.switchType fuel s g = Except.ok (s1, g1)) :
    s1.m_rewardType = SlotMachine.toggled s.m_rewardType := by
  rw [switchType_eq] at hrun
  exact (nextState_ok fuel _ g s1 g1 hrun).1

/-- A call of `switchType()` keeps the cursor valid. -/
theorem switchType_validCursor (fuel : Nat) (s : SlotMachine) (g : RandState) (s1 : SlotMachine)
    (g1 : RandState) (hrun : SlotMachine.switchType fuel s g = Except.ok (s1, g1))
    (hvalid : ValidCursor s) : ValidCursor s1 := by
  rw [switchType_eq] at hrun
  refine nextState_validCursor fuel _ g s1 g1 hrun ?_
  exact hvalid

/-- The second `switchType()` on `spinEndAtFirst`, stream `0, 1, 2, ...`: the
cursor moves on to `C1000k` and the reward type is `"chips"` again. -/
theorem switchType_twice_spinEndAtFirst :
    SlotMachine.switchType 1
        { m_state := EMachineState.SpinEnd, m_rewardType := s_rewardCoins, m_prize := 1,
          m_countdown := s_barTimeout * 4, visited := [EMachineState.SpinEnd] }
        { countingDraws with pos := 8 } =
      Except.ok ({ m_state := EMachineState.SpinEnd, m_rewardType := s_rewardChips, m_prize := 2,
                   m_countdown := s_barTimeout * 4,
                   visited := [EMachineState.SpinEnd, EMachineState.SpinEnd] },
        { countingDraws with pos := 14 }) := by
  rw [switchType_eq, cast_rewound, nextState_Spin _ _ _ rfl]
  rfl

/-! ## C11: the countdown after an advance -/

/-- C11: every advance resets the countdown before the entry action runs: the
outcome of `nextState` is the same whatever the countdown was before, and when
it returns the countdown is active exactly if the state is `Spin`, `SpinEnd`
or `Win`, and inactive in `Initial`, `ArmTouched` and `End`.  It does return,
for every large enough bound on the redraw loop, when the cursor is valid and
the stream ends that loop.  Hence after any sequence of calls on the
constructed controller an active countdown, the only thing that makes
`update` advance the state, is found only in `Spin`, `SpinEnd` or `Win`. -/
theorem C11_countdown_reset_on_every_advance (fuel : Nat) (s : SlotMachine) (g : RandState) :
    (∀ c, SlotMachine.nextState fuel { s with m_countdown := c } g =
      SlotMachine.nextState fuel s g) ∧
    (∀ s1 g1, SlotMachine.nextState fuel s g = Except.ok (s1, g1) →
      (0 ≤ s1.m_countdown ↔
        (s1.m_state = EMachineState.Spin ∨ s1.m_state = EMachineState.SpinEnd ∨
          s1.m_state = EMachineState.Win)) ∧
      (s1.m_state = EMachineState.Initial ∨ s1.m_state = EMachineState.ArmTouched ∨
        s1.m_state = EMachineState.End → s1.m_countdown < 0)) ∧
    (ValidCursor s → RedrawEnds g →
      ∃ fuel0 s1 g1, ∀ fuel1, fuel0 ≤ fuel1 →
        SlotMachine.nextState fuel1 s g = Except.ok (s1, g1)) ∧
    (∀ cs s1 g1, calls fuel cs SlotMachine.new g = Except.ok (s1, g1) →
      0 ≤ s1.m_countdown →
      s1.m_state = EMachineState.Spin ∨ s1.m_state = EMachineState.SpinEnd ∨
        s1.m_state = EMachineState.Win) := by
  refine ⟨fun c => nextState_countdown fuel s g c, fun s1 g1 hrun => ?_,
    fun hvalid hends => nextState_returns s g hvalid hends, fun cs s1 g1 hrun hact => ?_⟩
  · have hiff := (nextState_ok fuel s g s1 g1 hrun).2.1
    refine ⟨hiff, fun hrest => ?_⟩
    apply lt_of_not_le
    intro hact
    have htimed : Timed s1.m_state := hiff.mp hact
    unfold Timed at htimed
    rcases hrest with h | h | h <;> rw [h] at htimed <;> revert htimed <;> decide
  · exact (calls_sound fuel cs _ g s1 g1 hrun sound_new).2.1.mp hact

/-- C11 on `initialAtFirst` (one advance) and on the run of the constructed
controller into `Win`, stream `0, 1, 2, ...`. -/
theorem C11_countdown_reset_on_every_advance_witness :
    (ValidCursor initialAtFirst ∧ RedrawEnds countingDraws ∧
      ∃ fuel0 s1 g1, ∀ fuel1, fuel0 ≤ fuel1 →
        SlotMachine.nextState fuel1 initialAtFirst countingDraws = Except.ok (s1, g1)) ∧
    (0 ≤ winAfterFirstSpin.m_countdown ∧
      (winAfterFirstSpin.m_state = EMachineState.Spin ∨
        winAfterFirstSpin.m_state = EMachineState.SpinEnd ∨
        winAfterFirstSpin.m_state = EMachineState.Win)) :=
  ⟨⟨by decide, redrawEnds_countingDraws,
      (C11_countdown_reset_on_every_advance 0 initialAtFirst countingDraws).2.2.1 (by decide)
        redrawEnds_countingDraws⟩,
    ⟨by norm_num [winAfterFirstSpin],
      (C11_countdown_reset_on_every_advance 0 initialAtFirst countingDraws).2.2.2 _ _ _
        calls_to_win (by norm_num [winAfterFirstSpin])⟩⟩

/-! ## C12, C13: the grid and the redraw loop -/

/-- C12: whenever `generateSpinResult` returns, for any prize and any stream of
draws, the grid has exactly three rows of exactly three entries, and every
entry lies in `[0, s_fruitCount) = [0, 5)`. -/
theorem C12_grid_shape_and_range (fuel : Nat) (prize : EPrize) (g : RandState)
    (result : PrizeMatrix_t) (g1 : RandState)
    (hret : generateSpinResult fuel prize g = Except.ok (result, g1)) :
    s_fruitCount = 5 ∧ result.length = 3 ∧
    ∀ row, row ∈ result → row.length = 3 ∧ ∀ x, x ∈ row → 0 ≤ x ∧ x < s_fruitCount := by
  have hf := fruitAt_bounds g
  have h2 := tmod_cast_bounds (g.draws (g.pos + 6)) 2 (by decide)
  have hshape : ∀ (t0 c0 b0 t1 c1 b1 t2 c2 b2 : Int),
      (0 ≤ t0 ∧ t0 < s_fruitCount) → (0 ≤ c0 ∧ c0 < s_fruitCount) →
      (0 ≤ b0 ∧ b0 < s_fruitCount) → (0 ≤ t1 ∧ t1 < s_fruitCount) →
      (0 ≤ c1 ∧ c1 < s_fruitCount) → (0 ≤ b1 ∧ b1 < s_fruitCount) →
      (0 ≤ t2 ∧ t2 < s_fruitCount) → (0 ≤ c2 ∧ c2 < s_fruitCount) →
      (0 ≤ b2 ∧ b2 < s_fruitCount) →
      result = [[t0, c0, b0], [t1, c1, b1], [t2, c2, b2]] →
      s_fruitCount = 5 ∧ result.length = 3 ∧
      ∀ row, row ∈ result → row.length = 3 ∧ ∀ x, x ∈ row → 0 ≤ x ∧ x < s_fruitCount := by
    intro t0 c0 b0 t1 c1 b1 t2 c2 b2 ht0 hc0 hb0 ht1 hc1 hb1 ht2 hc2 hb2 hres
    subst hres
    refine ⟨rfl, rfl, fun row hrow => ?_⟩
    simp only [List.mem_cons, List.mem_singleton, List.not_mem_nil, or_false] at hrow
    rcases hrow with rfl | rfl | rfl
    · refine ⟨rfl, fun x hx => ?_⟩
      simp only [List.mem_cons, List.mem_singleton, List.not_mem_nil, or_false] at hx
      rcases hx with rfl | rfl | rfl <;> assumption
    · refine ⟨rfl, fun x hx => ?_⟩
      simp only [List.mem_cons, List.mem_singleton, List.not_mem_nil, or_false] at hx
      rcases hx with rfl | rfl | rfl <;> assumption
    · refine ⟨rfl, fun x hx => ?_⟩
      simp only [List.mem_cons, List.mem_singleton, List.not_mem_nil, or_false] at hx
      rcases hx with rfl | rfl | rfl <;> assumption
  have h5 : s_fruitCount = 5 := rfl
  cases prize with
  | None =>
    rw [generateSpinResult_None] at hret
    obtain ⟨y, hres, _, hy0, hy1⟩ := redrawLoop_ok_range _ _ _ _ _ _ _ fuel _ _ result g1
      (hf 6).1 (hf 6).2 hret
    exact hshape _ _ _ _ _ _ _ _ _ (hf 0) (hf 6) (hf 1) (hf 2) (hf 6) (hf 3) (hf 4) ⟨hy0, hy1⟩
      (hf 5) hres
  | C1k =>
    rw [generateSpinResult_C1k] at hret
    cases hret
    have hc : 0 ≤ Int.tmod (g.draws (g.pos + 6)) 2 ∧
        Int.tmod (g.draws (g.pos + 6)) 2 < s_fruitCount := ⟨h2.1, by rw [h5]; omega⟩
    exact hshape _ _ _ _ _ _ _ _ _ (hf 0) hc (hf 1) (hf 2) hc (hf 3) (hf 4) hc (hf 5) rfl
  | C500k =>
    rw [generateSpinResult_C500k] at hret
    cases hret
    have hc : 0 ≤ Int.tmod (g.draws (g.pos + 6)) 2 + 2 ∧
        Int.tmod (g.draws (g.pos + 6)) 2 + 2 < s_fruitCount :=
      ⟨by omega, by rw [h5]; omega⟩
    exact hshape _ _ _ _ _ _ _ _ _ (hf 0) hc (hf 1) (hf 2) hc (hf 3) (hf 4) hc (hf 5) rfl
  | C1000k =>
    rw [generateSpinResult_C1000k] at hret
    cases hret
    have hc : (0 : Int) ≤ 4 ∧ (4 : Int) < s_fruitCount := by decide
    exact hshape _ _ _ _ _ _ _ _ _ (hf 0) hc (hf 1) (hf 2) hc (hf 3) (hf 4) hc (hf 5) rfl

/-- C12 for the prize `None` on the stream `0, 1, 2, ...` with one loop
iteration allowed. -/
theorem C12_grid_shape_and_range_witness :
    generateSpinResult 1 EPrize.None countingDraws =
      Except.ok ([[0, 1, 1], [2, 1, 3], [4, 2, 0]], { countingDraws with pos := 8 }) ∧
    s_fruitCount = 5 ∧ ([[0, 1, 1], [2, 1, 3], [4, 2, 0]] : PrizeMatrix_t).length = 3 ∧
    ∀ row, row ∈ ([[0, 1, 1], [2, 1, 3], [4, 2, 0]] : PrizeMatrix_t) →
      row.length = 3 ∧ ∀ x, x ∈ row → 0 ≤ x ∧ x < s_fruitCount :=
  ⟨rfl, C12_grid_shape_and_range 1 EPrize.None countingDraws _ _ rfl⟩

/-- C13: with `s_fruitCount = 5` symbols, on a stream that after the seven
draws before the loop has a draw whose remainder differs from the centre
value, `generateSpinResult(None)` returns: with `k` the number of redraws
that repeat the centre value before the first one that differs, every bound
above `k` gives the grid whose reel-2 centre is that draw modulo
`s_fruitCount`, after `k + 1` redraws, and no bound up to `k` suffices (so at
least one redraw is made).  With one symbol no stream and no bound make the
method return. -/
theorem C13_redraw_loop_terminates (g : RandState) (hends : RedrawEnds g) :
    2 ≤ s_fruitCount ∧
    (∃ k,
      fruitAt g (7 + k) ≠ fruitAt g 6 ∧ (∀ j, j < k → fruitAt g (7 + j) = fruitAt g 6) ∧
      (∀ fuel, k + 1 ≤ fuel →
        generateSpinResult fuel EPrize.None g =
          Except.ok ([[fruitAt g 0, fruitAt g 6, fruitAt g 1],
            [fruitAt g 2, fruitAt g 6, fruitAt g 3],
            [fruitAt g 4, fruitAt g (7 + k), fruitAt g 5]],
            { g with pos := g.pos + 7 + (k + 1) })) ∧
      (∀ fuel, fuel ≤ k →
        generateSpinResult fuel EPrize.None g = Except.error Fault.outOfFuel)) ∧
    (∀ fuel g1, generateSpinResultWith 1 fuel EPrize.None g1 = Except.error Fault.outOfFuel) := by
  have hshift : ∀ j, fruitAt { g with pos := g.pos + 7 } j = fruitAt g (7 + j) := by
    intro j
    simp [fruitAt, Nat.add_assoc]
  refine ⟨by decide, ⟨Nat.find hends, Nat.find_spec hends,
    fun j hj => not_not.mp (Nat.find_min hends hj), fun fuel hfuel => ?_, fun fuel hfuel => ?_⟩,
    fun fuel g1 => generateSpinResultWith_one fuel g1⟩
  · rw [generateSpinResult_None, ← hshift]
    exact redrawLoop_first _ _ _ _ _ _ _ (Nat.find hends) _ fuel hfuel
      (fun j hj => by rw [hshift]; exact not_not.mp (Nat.find_min hends hj))
      (by rw [hshift]; exact Nat.find_spec hends)
  · rw [generateSpinResult_None]
    exact redrawLoop_short _ _ _ _ _ _ _ fuel _ (Nat.find hends) hfuel
      (fun j hj => by rw [hshift]; exact not_not.mp (Nat.find_min hends hj))

/-- C13 on the stream `0, 1, 2, ...`. -/
theorem C13_redraw_loop_terminates_witness :
    RedrawEnds countingDraws ∧
    ∃ k,
      fruitAt countingDraws (7 + k) ≠ fruitAt countingDraws 6 ∧
      (∀ j, j < k → fruitAt countingDraws (7 + j) = fruitAt countingDraws 6) ∧
      (∀ fuel, k + 1 ≤ fuel →
        generateSpinResult fuel EPrize.None countingDraws =
          Except.ok ([[fruitAt countingDraws 0, fruitAt countingDraws 6, fruitAt countingDraws 1],
            [fruitAt countingDraws 2, fruitAt countingDraws 6, fruitAt countingDraws 3],
            [fruitAt countingDraws 4, fruitAt countingDraws (7 + k), fruitAt countingDraws 5]],
            { countingDraws with pos := countingDraws.pos + 7 + (k + 1) })) ∧
      (∀ fuel, fuel ≤ k →
        generateSpinResult fuel EPrize.None countingDraws = Except.error Fault.outOfFuel) :=
  ⟨redrawEnds_countingDraws,
    (C13_redraw_loop_terminates countingDraws redrawEnds_countingDraws).2.1⟩

/-! ## C14, C15, C17: what holds after any sequence of calls -/

/-- C14: the constructor puts the cursor on the last element of the sequence,
and after any sequence of `start`, `switchType`, `update`, `onFinishSequence`
and `generatePrize` calls on the constructed controller the cursor index is
below `6`, never the past-the-end position, and designates a prize; no such
sequence, and no `nextState` after it, dereferences the cursor outside the
sequence. -/
theorem C14_cursor_always_valid (fuel : Nat) (cs : List Call) (g : RandState) :
    ValidCursor SlotMachine.new ∧ SlotMachine.new.m_prize = m_prizeSequence.length - 1 ∧
    calls fuel cs SlotMachine.new g ≠ Except.error Fault.undefinedBehaviour ∧
    (∀ s1 g1, calls fuel cs SlotMachine.new g = Except.ok (s1, g1) →
      s1.m_prize < 6 ∧ s1.m_prize ≠ m_prizeSequence.length ∧
      (∃ prize, deref s1.m_prize = Except.ok prize) ∧
      ∀ fuel2 g2,
        SlotMachine.nextState fuel2 s1 g2 ≠ Except.error Fault.undefinedBehaviour) := by
  refine ⟨by decide, rfl, calls_defined fuel cs _ g sound_new, fun s1 g1 hrun => ?_⟩
  have hvalid : ValidCursor s1 := (calls_sound fuel cs _ g s1 g1 hrun sound_new).1
  exact ⟨hvalid, Nat.ne_of_lt hvalid, deref_valid _ hvalid,
    fun fuel2 g2 => nextState_defined fuel2 s1 g2 hvalid⟩

/-- C14 on the run of the constructed controller into `Win`. -/
theorem C14_cursor_always_valid_witness :
    calls 0 [Call.start, Call.onFinishSequence, Call.update 4, Call.update 4]
        SlotMachine.new countingDraws =
      Except.ok (winAfterFirstSpin, { countingDraws with pos := 6 }) ∧
    winAfterFirstSpin.m_prize < 6 :=
  ⟨calls_to_win,
    ((C14_cursor_always_valid 0
      [Call.start, Call.onFinishSequence, Call.update 4, Call.update 4] countingDraws).2.2.2
      _ _ calls_to_win).1⟩

/-- C15: the reward type is `"chips"` at construction and one of `"coins"`,
`"chips"` after any sequence of calls; `switchType()` turns `"chips"` into
`"coins"` and `"coins"` into `"chips"`, so a second `switchType()` restores
the reward type; `start`, `update` and `onFinishSequence` leave it as it
is.  Each of these calls does return, for every large enough bound on the
redraw loop, when the cursor is valid and the stream ends that loop, and then
`switchType()` has exchanged the reward type, a second `switchType()` has
restored it, and the other three have left it alone. -/
theorem C15_reward_type_toggles (fuel : Nat) (s : SlotMachine) (g : RandState) :
    s_rewardCoins = "coins" ∧ s_rewardChips = "chips" ∧
    SlotMachine.new.m_rewardType = s_rewardChips ∧
    (∀ cs s1 g1, calls fuel cs SlotMachine.new g = Except.ok (s1, g1) →
      s1.m_rewardType = s_rewardCoins ∨ s1.m_rewardType = s_rewardChips) ∧
    (∀ s1 g1, SlotMachine.switchType fuel s g = Except.ok (s1, g1) →
      (s.m_rewardType = s_rewardChips → s1.m_rewardType = s_rewardCoins) ∧
      (s.m_rewardType = s_rewardCoins → s1.m_rewardType = s_rewardChips) ∧
      ∀ fuel2 s2 g2, SlotMachine.switchType fuel2 s1 g1 = Except.ok (s2, g2) →
        s2.m_rewardType = s.m_rewardType) ∧
    (∀ s1 g1, SlotMachine.start fuel s g = Except.ok (s1, g1) →
      s1.m_rewardType = s.m_rewardType) ∧
    (∀ dt s1 g1, SlotMachine.update fuel s g dt = Except.ok (s1, g1) →
      s1.m_rewardType = s.m_rewardType) ∧
    (∀ s1 g1, SlotMachine.onFinishSequence fuel s g = Except.ok (s1, g1) →
      s1.m_rewardType = s.m_rewardType) ∧
    (ValidCursor s → RedrawEnds g →
      (∃ fuel0 s1 g1,
        (∀ fuel1, fuel0 ≤ fuel1 → SlotMachine.switchType fuel1 s g = Except.ok (s1, g1)) ∧
        (s.m_rewardType = s_rewardChips → s1.m_rewardType = s_rewardCoins) ∧
        (s.m_rewardType = s_rewardCoins → s1.m_rewardType = s_rewardChips) ∧
        (RedrawEnds g1 →
          ∃ fuel2 s2 g2,
            (∀ fuel3, fuel2 ≤ fuel3 →
              SlotMachine.switchType fuel3 s1 g1 = Except.ok (s2, g2)) ∧
            s2.m_rewardType = s.m_rewardType)) ∧
      (∃ fuel0 s1 g1,
        (∀ fuel1, fuel0 ≤ fuel1 → SlotMachine.start fuel1 s g = Except.ok (s1, g1)) ∧
        s1.m_rewardType = s.m_rewardType) ∧
      (∀ dt, ∃ fuel0 s1 g1,
        (∀ fuel1, fuel0 ≤ fuel1 → SlotMachine.update fuel1 s g dt = Except.ok (s1, g1)) ∧
        s1.m_rewardType = s.m_rewardType) ∧
      (∃ fuel0 s1 g1,
        (∀ fuel1, fuel0 ≤ fuel1 →
          SlotMachine.onFinishSequence fuel1 s g = Except.ok (s1, g1)) ∧
        s1.m_rewardType = s.m_rewardType)) := by
  have hchips : SlotMachine.toggled s_rewardChips = s_rewardCoins := by decide
  have hcoins : SlotMachine.toggled s_rewardCoins = s_rewardChips := by decide
  refine ⟨rfl, rfl, rfl, fun cs s1 g1 hrun => (calls_sound fuel cs _ g s1 g1 hrun sound_new).2.2,
    fun s1 g1 hrun => ⟨fun hc => ?_, fun hc => ?_, fun fuel2 s2 g2 hrun2 => ?_⟩,
    fun s1 g1 hrun => ?_, fun dt s1 g1 hrun => ?_,
    fun s1 g1 hrun => (nextState_ok fuel s g s1 g1 hrun).1,
    fun hvalid hends => ⟨?_, ?_, fun dt => ?_, ?_⟩⟩
  · rw [switchType_rewardType fuel s g s1 g1 hrun, hc, hchips]
  · rw [switchType_rewardType fuel s g s1 g1 hrun, hc, hcoins]
  · rw [switchType_rewardType fuel2 s1 g1 s2 g2 hrun2, switchType_rewardType fuel s g s1 g1 hrun,
      toggled_toggled]
  · simp only [SlotMachine.start] at hrun
    split at hrun
    · exact (nextState_ok fuel s g s1 g1 hrun).1
    · cases hrun
      rfl
  · simp only [SlotMachine.update] at hrun
    split at hrun
    · split at hrun
      · exact (nextState_ok fuel _ g s1 g1 hrun).1
      · cases hrun
        rfl
    · cases hrun
      rfl
  · obtain ⟨fuel0, s1, g1, hret⟩ := switchType_returns s g hvalid hends
    have hrun := hret fuel0 le_rfl
    have htype := switchType_rewardType fuel0 s g s1 g1 hrun
    refine ⟨fuel0, s1, g1, hret, fun hc => by rw [htype, hc, hchips],
      fun hc => by rw [htype, hc, hcoins], fun hends1 => ?_⟩
    obtain ⟨fuel2, s2, g2, hret2⟩ := switchType_returns s1 g1
      (switchType_validCursor fuel0 s g s1 g1 hrun hvalid) hends1
    exact ⟨fuel2, s2, g2, hret2, by
      rw [switchType_rewardType fuel2 s1 g1 s2 g2 (hret2 fuel2 le_rfl), htype, toggled_toggled]⟩
  · by_cases hs : s.m_state = EMachineState.Initial
    · obtain ⟨fuel0, s1, g1, hret⟩ := nextState_returns s g hvalid hends
      refine ⟨fuel0, s1, g1, fun fuel1 hfuel => ?_,
        (nextState_ok fuel0 s g s1 g1 (hret fuel0 le_rfl)).1⟩
      simp only [SlotMachine.start, hs, if_true]
      exact hret fuel1 hfuel
    · exact ⟨0, s, g, fun fuel1 _ => by simp only [SlotMachine.start, hs, if_false], rfl⟩
  · by_cases hact : s.m_countdown ≥ 0
    · by_cases hexp : s.m_countdown - dt < 0
      · obtain ⟨fuel0, s1, g1, hret⟩ := nextState_returns s g hvalid hends
        refine ⟨fuel0, s1, g1, fun fuel1 hfuel => ?_,
          (nextState_ok fuel0 s g s1 g1 (hret fuel0 le_rfl)).1⟩
        simp only [SlotMachine.update, hact, if_true, hexp]
        rw [nextState_countdown]
        exact hret fuel1 hfuel
      · exact ⟨0, { s with m_countdown := s.m_countdown - dt }, g, fun fuel1 _ => by
          simp only [SlotMachine.update, hact, if_true, hexp, if_false], rfl⟩
    · exact ⟨0, s, g, fun fuel1 _ => by simp only [SlotMachine.update, hact, if_false], rfl⟩
  · obtain ⟨fuel0, s1, g1, hret⟩ := nextState_returns s g hvalid hends
    exact ⟨fuel0, s1, g1, fun fuel1 hfuel => hret fuel1 hfuel,
      (nextState_ok fuel0 s g s1 g1 (hret fuel0 le_rfl)).1⟩

/-- C15 on `spinEndAtFirst` and the stream `0, 1, 2, ...`: `switchType()`
returns, two calls in a row return with `"coins"` and then `"chips"` again;
and on the run of the constructed controller into `Win`. -/
theorem C15_reward_type_toggles_witness :
    ValidCursor spinEndAtFirst ∧ RedrawEnds countingDraws ∧
    (∃ fuel0 s1 g1,
      (∀ fuel1, fuel0 ≤ fuel1 →
        SlotMachine.switchType fuel1 spinEndAtFirst countingDraws = Except.ok (s1, g1)) ∧
      (spinEndAtFirst.m_rewardType = s_rewardChips → s1.m_rewardType = s_rewardCoins) ∧
      (spinEndAtFirst.m_rewardType = s_rewardCoins → s1.m_rewardType = s_rewardChips) ∧
      (RedrawEnds g1 →
        ∃ fuel2 s2 g2,
          (∀ fuel3, fuel2 ≤ fuel3 →
            SlotMachine.switchType fuel3 s1 g1 = Except.ok (s2, g2)) ∧
          s2.m_rewardType = spinEndAtFirst.m_rewardType)) ∧
    (SlotMachine.switchType 1 spinEndAtFirst countingDraws =
        Except.ok ({ m_state := EMachineState.SpinEnd, m_rewardType := s_rewardCoins,
                     m_prize := 1, m_countdown := s_barTimeout * 4,
                     visited := [EMachineState.SpinEnd] }, { countingDraws with pos := 8 }) ∧
      SlotMachine.switchType 1
          { m_state := EMachineState.SpinEnd, m_rewardType := s_rewardCoins, m_prize := 1,
            m_countdown := s_barTimeout * 4, visited := [EMachineState.SpinEnd] }
          { countingDraws with pos := 8 } =
        Except.ok ({ m_state := EMachineState.SpinEnd, m_rewardType := s_rewardChips,
                     m_prize := 2, m_countdown := s_barTimeout * 4,
                     visited := [EMachineState.SpinEnd, EMachineState.SpinEnd] },
          { countingDraws with pos := 14 }) ∧
      ({ m_state := EMachineState.SpinEnd, m_rewardType := s_rewardChips, m_prize := 2,
         m_countdown := s_barTimeout * 4,
         visited := [EMachineState.SpinEnd, EMachineState.SpinEnd] } : SlotMachine).m_rewardType =
        spinEndAtFirst.m_rewardType) ∧
    (winAfterFirstSpin.m_rewardType = s_rewardCoins ∨
      winAfterFirstSpin.m_rewardType = s_rewardChips) :=
  ⟨by decide, redrawEnds_countingDraws,
    ((C15_reward_type_toggles 0 spinEndAtFirst countingDraws).2.2.2.2.2.2.2.2 (by decide)
      redrawEnds_countingDraws).1,
    ⟨switchType_spinEndAtFirst, switchType_twice_spinEndAtFirst,
      ((C15_reward_type_toggles 1 spinEndAtFirst countingDraws).2.2.2.2.1 _ _
        switchType_spinEndAtFirst).2.2 1 _ _ switchType_twice_spinEndAtFirst⟩,
    (C15_reward_type_toggles 0 spinEndAtFirst countingDraws).2.2.2.1 _ _ _ calls_to_win⟩

/-- C17: after any sequence of `start`, `switchType`, `update` and
`onFinishSequence` calls on the constructed controller, a machine that is in
`Win` has its cursor on a prize other than `None`, and the index
`static_cast<int>(prize) - 1` that `showPrize` uses is `0`, `1` or `2`. -/
theorem C17_win_has_prize (fuel : Nat) (cs : List Call) (g : RandState) (s1 : SlotMachine) (g1 : RandState)
    (hpublic : ∀ c, c ∈ cs → c.isPublic = true)
    (hrun : calls fuel cs SlotMachine.new g = Except.ok (s1, g1))
    (hwin : s1.m_state = EMachineState.Win) :
    ∃ prize, deref s1.m_prize = Except.ok prize ∧ prize ≠ EPrize.None ∧
      (SlotMachine.centralCoinIndex prize = 0 ∨ SlotMachine.centralCoinIndex prize = 1 ∨
        SlotMachine.centralCoinIndex prize = 2) := by
  have hinit : WinHasPrize SlotMachine.new := fun h => by cases h
  obtain ⟨prize, hprize, hne⟩ := calls_winHasPrize fuel cs _ g s1 g1 hpublic hrun hinit hwin
  refine ⟨prize, hprize, hne, ?_⟩
  cases prize with
  | None => exact absurd rfl hne
  | C1k => exact Or.inl rfl
  | C500k => exact Or.inr (Or.inl rfl)
  | C1000k => exact Or.inr (Or.inr rfl)

/-- C17 on the run of the constructed controller into `Win`. -/
theorem C17_win_has_prize_witness :
    (∀ c, c ∈ [Call.start, Call.onFinishSequence, Call.update 4, Call.update 4] →
      c.isPublic = true) ∧
    calls 0 [Call.start, Call.onFinishSequence, Call.update 4, Call.update 4]
        SlotMachine.new countingDraws =
      Except.ok (winAfterFirstSpin, { countingDraws with pos := 6 }) ∧
    winAfterFirstSpin.m_state = EMachineState.Win ∧
    ∃ prize, deref winAfterFirstSpin.m_prize = Except.ok prize ∧ prize ≠ EPrize.None ∧
      (SlotMachine.centralCoinIndex prize = 0 ∨ SlotMachine.centralCoinIndex prize = 1 ∨
        SlotMachine.centralCoinIndex prize = 2) :=
  ⟨by simp [Call.isPublic], calls_to_win, rfl,
    C17_win_has_prize 0 _ countingDraws _ _ (by simp [Call.isPublic]) calls_to_win rfl⟩

/-! ## C16: the prize names -/

/-- C16: `getTextByPrize` maps `None`, `C1k`, `C500k`, `C1000k` to `"notwin"`,
`"win1k"`, `"win500k"`, `"win1000k"`; it is injective and never returns the
empty string. -/
theorem C16_getTextByPrize_mapping :
    getTextByPrize EPrize.None = "notwin" ∧ getTextByPrize EPrize.C1k = "win1k" ∧
    getTextByPrize EPrize.C500k = "win500k" ∧ getTextByPrize EPrize.C1000k = "win1000k" ∧
    Function.Injective getTextByPrize ∧ ∀ prize, getTextByPrize prize ≠ "" := by
  refine ⟨rfl, rfl, rfl, rfl, ?_, ?_⟩
  · intro p q hpq
    cases p <;> cases q <;> first | rfl | exact absurd hpq (by decide)
  · intro p
    cases p <;> decide

/-- C16 at `C1k` and `C500k`: different prizes, different names. -/
theorem C16_getTextByPrize_mapping_witness :
    getTextByPrize EPrize.C1k ≠ getTextByPrize EPrize.C500k :=
  fun h => absurd (C16_getTextByPrize_mapping.2.2.2.2.1 h) (by decide)

/-! ## C18: `switchType` and the prize cursor -/

/-- Neighbours in the prize sequence, cyclically, are different prizes. -/
theorem deref_next_ne (i : Nat) (hi : i < m_prizeSequence.length) :
    deref ((i + 1) % m_prizeSequence.length) ≠ deref i := by
  rw [length_prizeSequence] at hi ⊢
  interval_cases i <;> simp [deref, m_prizeSequence]

/-- C18: whenever `switchType()` returns, the cursor is where it was unless the
call was made in `SpinEnd`; made in `SpinEnd`, the call ends in `SpinEnd` with
the cursor moved by `generatePrize`, for a valid cursor to the next index
modulo the length of the sequence, which designates another prize than
before, and the advance that follows (into `Win`) leaves the cursor there.
The call does return, for every large enough bound on the redraw loop, when
the cursor is valid and the stream ends that loop. -/
theorem C18_switchType_cursor (s : SlotMachine) (g : RandState) :
    (∀ fuel s1 g1, SlotMachine.switchType fuel s g = Except.ok (s1, g1) →
      (s.m_state ≠ EMachineState.SpinEnd → s1.m_prize = s.m_prize) ∧
      (s.m_state = EMachineState.SpinEnd →
        s1.m_state = EMachineState.SpinEnd ∧
        s1.m_prize = (SlotMachine.generatePrize s).m_prize ∧
        (ValidCursor s →
          s1.m_prize = (s.m_prize + 1) % m_prizeSequence.length ∧
          deref s1.m_prize ≠ deref s.m_prize) ∧
        ∀ fuel2 s2 g2, SlotMachine.nextState fuel2 s1 g1 = Except.ok (s2, g2) →
          s2.m_prize = s1.m_prize)) ∧
    (ValidCursor s → RedrawEnds g →
      ∃ fuel0 s1 g1, ∀ fuel, fuel0 ≤ fuel →
        SlotMachine.switchType fuel s g = Except.ok (s1, g1)) := by
  refine ⟨fun fuel s1 g1 hrun => ?_, fun hvalid hends => switchType_returns s g hvalid hends⟩
  have hrun' := hrun
  rw [switchType_eq] at hrun'
  have hok := nextState_ok fuel _ g s1 g1 hrun'
  have hrew := cast_rewound s.m_state
  constructor
  · intro hs
    refine hok.2.2.1 ?_
    show EMachineState.cast (SlotMachine.rewound s.m_state) ≠ EMachineState.Spin
    rw [hrew]
    revert hs
    cases s.m_state <;> decide
  · intro hs
    have hspin : EMachineState.cast (SlotMachine.rewound s.m_state) = EMachineState.Spin := by
      rw [hrew, hs]
    have hcur : s1.m_prize = (SlotMachine.generatePrize s).m_prize := by
      rw [hok.2.2.2.1 hspin, generatePrize_m_prize, generatePrize_m_prize]
    have hkeep := switchType_state fuel s g s1 g1
      (fun hw => by rw [hs] at hw; cases hw.1) hrun
    refine ⟨hkeep.1.trans hs, hcur, fun hvalid => ?_, fun fuel2 s2 g2 hrun2 => ?_⟩
    · have hmod : s1.m_prize = (s.m_prize + 1) % m_prizeSequence.length := by
        rw [hcur, generatePrize_m_prize, length_prizeSequence]
        simp only [ValidCursor, length_prizeSequence] at hvalid
        split <;> omega
      exact ⟨hmod, by rw [hmod]; exact deref_next_ne _ hvalid⟩
    · refine (nextState_ok fuel2 s1 g1 s2 g2 hrun2).2.2.1 ?_
      rw [hkeep.1, hs]
      decide

/-- C18 on `spinEndAtFirst` and the stream `0, 1, 2, ...`: the cursor moves from
index `0` to index `1`. -/
theorem C18_switchType_cursor_witness :
    spinEndAtFirst.m_state = EMachineState.SpinEnd ∧ ValidCursor spinEndAtFirst ∧
    (({ m_state := EMachineState.SpinEnd, m_rewardType := s_rewardCoins, m_prize := 1,
        m_countdown := s_barTimeout * 4,
        visited := [EMachineState.SpinEnd] } : SlotMachine).m_prize =
      (spinEndAtFirst.m_prize + 1) % m_prizeSequence.length) :=
  ⟨rfl, by decide,
    ((((C18_switchType_cursor spinEndAtFirst countingDraws).1 1 _ _
      switchType_spinEndAtFirst).2 rfl).2.2.1 (by decide)).1⟩

/-! ## C19: the centre values of the winning tiers -/

/-- The centre value of a winning grid, tier by tier. -/
theorem winning_centre (fuel : Nat) (prize : EPrize) (g : RandState) (result : PrizeMatrix_t)
    (g1 : RandState) (hret : generateSpinResult fuel prize g = Except.ok (result, g1)) :
    (prize = EPrize.C1k → getEntry result 1 1 = 0 ∨ getEntry result 1 1 = 1) ∧
    (prize = EPrize.C500k → getEntry result 1 1 = 2 ∨ getEntry result 1 1 = 3) ∧
    (prize = EPrize.C1000k → getEntry result 1 1 = 4) := by
  have h2 := tmod_cast_bounds (g.draws (g.pos + 6)) 2 (by decide)
  cases prize with
  | None => exact ⟨(fun h => by cases h), (fun h => by cases h), (fun h => by cases h)⟩
  | C1k =>
    rw [generateSpinResult_C1k] at hret
    cases hret
    refine ⟨fun _ => ?_, (fun h => by cases h), (fun h => by cases h)⟩
    simp only [getEntry, List.getD_cons_succ, List.getD_cons_zero]
    omega
  | C500k =>
    rw [generateSpinResult_C500k] at hret
    cases hret
    refine ⟨(fun h => by cases h), fun _ => ?_, (fun h => by cases h)⟩
    simp only [getEntry, List.getD_cons_succ, List.getD_cons_zero]
    omega
  | C1000k =>
    rw [generateSpinResult_C1000k] at hret
    cases hret
    exact ⟨(fun h => by cases h), (fun h => by cases h), fun _ => rfl⟩

/-- C19: with `s_fruitCount = 5` the centre value of a grid that
`generateSpinResult` returns is `0` or `1` for `C1k`, `2` or `3` for `C500k`
and `4` for `C1000k`; hence two winning grids with equal centre values belong
to equal tiers; and every symbol index in `[0, 5)` is the centre value of some
winning grid. -/
theorem C19_tier_centres_disjoint_and_cover :
    s_fruitCount = 5 ∧
    (∀ fuel prize g result g1, generateSpinResult fuel prize g = Except.ok (result, g1) →
      (prize = EPrize.C1k → getEntry result 1 1 = 0 ∨ getEntry result 1 1 = 1) ∧
      (prize = EPrize.C500k → getEntry result 1 1 = 2 ∨ getEntry result 1 1 = 3) ∧
      (prize = EPrize.C1000k → getEntry result 1 1 = 4)) ∧
    (∀ fuel1 fuel2 prize1 prize2 g1 g2 result1 result2 h1 h2,
      prize1 ≠ EPrize.None → prize2 ≠ EPrize.None →
      generateSpinResult fuel1 prize1 g1 = Except.ok (result1, h1) →
      generateSpinResult fuel2 prize2 g2 = Except.ok (result2, h2) →
      getEntry result1 1 1 = getEntry result2 1 1 → prize1 = prize2) ∧
    (∀ v : Int, 0 ≤ v → v < s_fruitCount →
      ∃ prize g result g1, prize ≠ EPrize.None ∧
        generateSpinResult 0 prize g = Except.ok (result, g1) ∧ getEntry result 1 1 = v) := by
  refine ⟨rfl, fun fuel prize g result g1 hret => winning_centre fuel prize g result g1 hret,
    ?_, ?_⟩
  · intro fuel1 fuel2 prize1 prize2 g1 g2 result1 result2 h1 h2 hw1 hw2 hr1 hr2 heq
    have hc1 := winning_centre fuel1 prize1 g1 result1 h1 hr1
    have hc2 := winning_centre fuel2 prize2 g2 result2 h2 hr2
    rw [heq] at hc1
    cases prize1 <;> cases prize2 <;> first
      | rfl
      | exact absurd rfl hw1
      | exact absurd rfl hw2
      | (have a := hc1.1; have b := hc1.2.1; have c := hc1.2.2
         have d := hc2.1; have e := hc2.2.1; have f := hc2.2.2
         simp only [true_implies, false_implies, reduceCtorEq] at a b c d e f
         omega)
  · intro v hv0 hv1
    have h5 : s_fruitCount = 5 := rfl
    rw [h5] at hv1
    interval_cases v
    · exact ⟨EPrize.C1k, constantDraws 0, _, _, by decide, generateSpinResult_C1k 0 _, rfl⟩
    · exact ⟨EPrize.C1k, constantDraws 1, _, _, by decide, generateSpinResult_C1k 0 _, rfl⟩
    · exact ⟨EPrize.C500k, constantDraws 0, _, _, by decide, generateSpinResult_C500k 0 _, rfl⟩
    · exact ⟨EPrize.C500k, constantDraws 1, _, _, by decide, generateSpinResult_C500k 0 _, rfl⟩
    · exact ⟨EPrize.C1000k, constantDraws 0, _, _, by decide, generateSpinResult_C1000k 0 _, rfl⟩

/-- C19 at the symbol index `3`: some winning grid has it as its centre value. -/
theorem C19_tier_centres_disjoint_and_cover_witness :
    (0 : Int) ≤ 3 ∧ (3 : Int) < s_fruitCount ∧
    ∃ prize g result g1, prize ≠ EPrize.None ∧
      generateSpinResult 0 prize g = Except.ok (result, g1) ∧ getEntry result 1 1 = 3 :=
  ⟨by decide, by decide,
    C19_tier_centres_disjoint_and_cover.2.2.2 3 (by decide) (by decide)⟩

/-! ## C7: `switchType` keeps the state -/

/-- C7: in every configuration that a sequence of `start`, `switchType`,
`update` and `onFinishSequence` calls on the constructed controller brings
about, `switchType()` rewinds the state by one step (`Initial` wraps to `End`)
and advances again, so that whenever the call returns the state is the one
before the call and that state has been entered once more: its entry action
is re-run and the machine does not move on.  The call does return, for every
large enough bound on the redraw loop, on a stream that ends that loop. -/
theorem C7_switchType_keeps_state (fuel0 : Nat) (cs : List Call) (g0 : RandState)
    (s : SlotMachine) (g1 : RandState) (g : RandState)
    (hpublic : ∀ c, c ∈ cs → c.isPublic = true)
    (hreach : calls fuel0 cs SlotMachine.new g0 = Except.ok (s, g1)) :
    SlotMachine.advanced (EMachineState.cast (SlotMachine.rewound s.m_state)) = s.m_state ∧
    (s.m_state = EMachineState.Initial →
      EMachineState.cast (SlotMachine.rewound s.m_state) = EMachineState.End) ∧
    (∀ fuel s1 g2, SlotMachine.switchType fuel s g = Except.ok (s1, g2) →
      s1.m_state = s.m_state ∧ s1.visited = s.visited ++ [s.m_state]) ∧
    (RedrawEnds g →
      ∃ fuel1 s1 g2, (∀ fuel, fuel1 ≤ fuel →
        SlotMachine.switchType fuel s g = Except.ok (s1, g2)) ∧
        s1.m_state = s.m_state ∧ s1.visited = s.visited ++ [s.m_state]) := by
  have hvalid : ValidCursor s := (calls_sound fuel0 cs _ g0 s g1 hreach sound_new).1
  have hwin : WinHasPrize s :=
    calls_winHasPrize fuel0 cs _ g0 s g1 hpublic hreach (fun h => by cases h)
  have hnot : ¬ (s.m_state = EMachineState.Win ∧ deref s.m_prize = Except.ok EPrize.None) := by
    intro hboth
    obtain ⟨prize, hprize, hne⟩ := hwin hboth.1
    rw [hboth.2] at hprize
    cases hprize
    exact hne rfl
  have hgen := switchType_keeps_state_unless_winAtNone s g hnot
  refine ⟨hgen.1, hgen.2.1, hgen.2.2.1, fun hends => ?_⟩
  obtain ⟨fuel1, s1, g2, hret⟩ := switchType_returns s g hvalid hends
  exact ⟨fuel1, s1, g2, hret, hgen.2.2.1 fuel1 s1 g2 (hret fuel1 le_rfl)⟩

/-- C7 on the constructed controller after its run into `Win`, stream
`0, 1, 2, ...`: `switchType()` returns in `Win`. -/
theorem C7_switchType_keeps_state_witness :
    (∀ c, c ∈ [Call.start, Call.onFinishSequence, Call.update 4, Call.update 4] →
      c.isPublic = true) ∧
    calls 0 [Call.start, Call.onFinishSequence, Call.update 4, Call.update 4]
        SlotMachine.new countingDraws =
      Except.ok (winAfterFirstSpin, { countingDraws with pos := 6 }) ∧
    RedrawEnds { countingDraws with pos := 6 } ∧
    ∃ fuel1 s1 g2, (∀ fuel, fuel1 ≤ fuel →
      SlotMachine.switchType fuel winAfterFirstSpin { countingDraws with pos := 6 } =
        Except.ok (s1, g2)) ∧
      s1.m_state = winAfterFirstSpin.m_state ∧
      s1.visited = winAfterFirstSpin.visited ++ [winAfterFirstSpin.m_state] :=
  ⟨by simp [Call.isPublic], calls_to_win, redrawEnds_countingDraws_six,
    (C7_switchType_keeps_state 0 _ countingDraws _ _ { countingDraws with pos := 6 }
      (by simp [Call.isPublic]) calls_to_win).2.2.2 redrawEnds_countingDraws_six⟩

end GAFSlotMachine
